import Mathlib

/-!
Verification of the unai repository (a provider-agnostic LLM client library)
against its natural-language specification.

The development shallowly embeds two cores of the repository:

* the OpenAI Chat Completions adapter of `src/api/openai.rs`, in particular
  the streaming accumulator of `OpenAIStream::create` and the non-streaming
  conversion `From<OpenAIResponse> for Response`;
* the agent tool-execution loop of `src/agent.rs` (`Agent::chat` and
  `Agent::chat_stream`).

The repository does not ship `src/model.rs` and `src/stream.rs` (the modules
declaring the canonical `Message`/`Part`/`Response`/`StreamChunk` types);
those data declarations are modelled from the specification, with field sets
pinned down by how the two embedded files construct and match them.  Since
`src/api/openai.rs` and `src/agent.rs` come from different snapshots of the
crate and use structurally different `Part` shapes, the two embeddings carry
separate part/message types, each faithful to the file it serves.

Effectful collaborators (the HTTP transport, the SSE decoder, `serde_json`
string parsing, the MCP tool server, the vendor client behind the agent) are
passed in as explicit function arguments, so every theorem quantifies over
the collaborator behaviour.
-/

namespace Unai

/-- Modelled from the spec: `serde_json::Value`, the JSON value type used for
tool-call arguments and tool responses. Numbers are modelled as integers,
which is enough for every claim under study. -/
inductive Json where
  | null
  | bool (b : Bool)
  | num (n : Int)
  | str (s : String)
  | arr (items : List Json)
  | obj (fields : List (String × Json))

/-- Modelled from the spec: the finish-reason enumeration
`enum FinishReason { Unfinished, Stop, OutputTokens, ContentFilter, ToolCalls }`
of the absent `src/model.rs`. -/
inductive FinishReason where
  | unfinished
  | stop
  | outputTokens
  | contentFilter
  | toolCalls
deriving Repr, DecidableEq

/-- Modelled from the spec: the usage counters of the absent `src/model.rs`;
both token counters are optional, and `Usage::default()` is both-`None`. -/
structure Usage where
  prompt_tokens : Option Nat
  completion_tokens : Option Nat
deriving Repr, DecidableEq

/-- Modelled from the spec: the media-type enumeration of the absent
`src/model.rs`. -/
inductive MediaType where
  | image
  | audio
  | video
  | text
  | document
  | binary
deriving Repr, DecidableEq

/-- Modelled from the spec: the content `Part` union of the absent
`src/model.rs`, with the exact variant shapes that `src/api/openai.rs`
constructs and matches (spec section 3). -/
inductive Part where
  | text (content : String) (finished : Bool)
  | media (media_type : MediaType) (data : String) (mime_type : String)
      (uri : Option String) (finished : Bool)
  | reasoning (content : String) (summary : Option String)
      (signature : Option String) (finished : Bool)
  | functionCall (id : Option String) (name : String) (arguments : Json)
      (signature : Option String) (finished : Bool)
  | functionResponse (id : Option String) (name : String) (response : Json)
      (parts : List Part) (finished : Bool)

/-- Modelled from the spec: the role-tagged `Message` union of the absent
`src/model.rs`, as used by `src/api/openai.rs`. -/
inductive Message where
  | user (parts : List Part)
  | assistant (parts : List Part)

/-- The parts of a message, as `Message::parts`/`parts_mut` expose them. -/
def Message.parts : Message → List Part
  | .user ps => ps
  | .assistant ps => ps

/-- Replace the parts of a message in place, keeping the role; this is the
write access that `parts_mut` gives the streaming accumulator. -/
def Message.withParts : Message → List Part → Message
  | .user _, ps => .user ps
  | .assistant _, ps => .assistant ps

/-- Modelled from the spec: the aggregate `Response` of the absent
`src/model.rs` as used by `src/api/openai.rs` (`data`, `usage`, `finish`). -/
structure Response where
  data : List Message
  usage : Usage
  finish : FinishReason

/- Wire types of the OpenAI streaming chunk, from the stream-type block of
`src/api/openai.rs` (`OpenAIStreamChunk` and friends). -/

/-- `OpenAIStreamFunction` from `src/api/openai.rs`. -/
structure OpenAIStreamFunction where
  name : Option String
  arguments : Option String

/-- `OpenAIStreamToolCall` from `src/api/openai.rs`; `index` is the
vendor-assigned `u32` key of the tool call. -/
structure OpenAIStreamToolCall where
  index : Nat
  id : Option String
  function : Option OpenAIStreamFunction

/-- `OpenAIDelta` from `src/api/openai.rs`. -/
structure OpenAIDelta where
  content : Option String
  tool_calls : Option (List OpenAIStreamToolCall)

/-- `OpenAIStreamChoice` from `src/api/openai.rs`. -/
structure OpenAIStreamChoice where
  delta : Option OpenAIDelta
  finish_reason : Option String

/-- `OpenAIUsage` from `src/api/openai.rs`. -/
structure OpenAIUsage where
  prompt_tokens : Nat
  completion_tokens : Nat

/-- `OpenAIStreamChunk` from `src/api/openai.rs`. -/
structure OpenAIStreamChunk where
  id : String
  choices : List OpenAIStreamChoice
  usage : Option OpenAIUsage

/-- The local mutable state of `OpenAIStream::create`: the growing response
snapshot, the `tool_index_map : HashMap<u32, usize>` (kept as an association
list, which is extensionally the map since keys are inserted at most once),
and `current_text_part_index`. -/
structure OpenAIStreamState where
  response : Response
  toolIndexMap : List (Nat × Nat)
  currentTextPartIndex : Option Nat

/-- First-match association lookup, the read operation of `tool_index_map`. -/
def lookupIdx : List (Nat × Nat) → Nat → Option Nat
  | [], _ => none
  | (k, v) :: rest, i => if k = i then some v else lookupIdx rest i

/-- The parts of `current_response.data[0]`, which the accumulator mutates via
`parts_mut()`; `data` is the singleton assistant message throughout. -/
def Response.firstParts (r : Response) : List Part :=
  match r.data with
  | [] => []
  | m :: _ => m.parts

/-- Write back the parts of `current_response.data[0]`. -/
def Response.setFirstParts (r : Response) (ps : List Part) : Response :=
  match r.data with
  | [] => r
  | m :: rest => { r with data := m.withParts ps :: rest }

/-- The text-delta branch of `OpenAIStream::create` (lines 177-186): append to
the tracked unfinished text part, or push a fresh one and record its index. -/
def processTextDelta (parts : List Part) (textIdx : Option Nat)
    (deltaContent : String) : List Part × Option Nat :=
  match textIdx with
  | some idx =>
    match parts[idx]? with
    | some (.text c fin) => (parts.set idx (.text (c ++ deltaContent) fin), textIdx)
    | _ => (parts, textIdx)
  | none => (parts ++ [.text deltaContent false], some parts.length)

/-- The tool-call-delta branch of `OpenAIStream::create` (lines 189-216): look
the vendor index up in `tool_index_map`, allocating a fresh `FunctionCall`
part on first sighting, then merge `id`, `name` and the raw `arguments`
string buffer into the part at the mapped position. -/
def processToolCall (st : List Part × List (Nat × Nat))
    (tc : OpenAIStreamToolCall) : List Part × List (Nat × Nat) :=
  let withEntry : Nat × List Part × List (Nat × Nat) :=
    match lookupIdx st.2 tc.index with
    | some i => (i, st.1, st.2)
    | none =>
      (st.1.length,
       st.1 ++ [.functionCall none "" (Json.str "") none false],
       st.2 ++ [(tc.index, st.1.length)])
  let idx := withEntry.1
  let parts := withEntry.2.1
  let map := withEntry.2.2
  match parts[idx]? with
  | some (.functionCall pid pname pargs psig pfin) =>
    let pid' := match tc.id with
      | some i => some i
      | none => pid
    let pname' := match tc.function with
      | some f => pname ++ (match f.name with | some n => n | none => "")
      | none => pname
    let pargs' := match tc.function with
      | some f =>
        match f.arguments, pargs with
        | some a, Json.str s => Json.str (s ++ a)
        | _, _ => pargs
      | none => pargs
    (parts.set idx (.functionCall pid' pname' pargs' psig pfin), map)
  | _ => (parts, map)

/-- The finish-reason mapping of the streaming path of `src/api/openai.rs`
(lines 240-246). -/
def openAIFinishFromStream (s : String) : FinishReason :=
  match s with
  | "stop" => .stop
  | "length" => .outputTokens
  | "tool_calls" => .toolCalls
  | "content_filter" => .contentFilter
  | _ => .stop

/-- The terminal-chunk treatment of one part (lines 221-238): mark it
finished and, for a function call whose arguments are still a raw string
buffer, parse the buffer (`parse` standing for `serde_json::from_str`),
falling back to the empty object on failure. -/
def finishPart (parse : String → Option Json) : Part → Part
  | .text c _ => .text c true
  | .reasoning c su sig _ => .reasoning c su sig true
  | .functionCall id name args sig _ =>
    let args' := match args with
      | Json.str s =>
        match parse s with
        | some v => v
        | none => Json.obj []
      | v => v
    .functionCall id name args' sig true
  | .functionResponse id name resp ps _ => .functionResponse id name resp ps true
  | .media mt d mime uri _ => .media mt d mime uri true

/-- Whether a part carries `finished = true`. -/
def Part.finishedFlag : Part → Bool
  | .text _ f => f
  | .reasoning _ _ _ f => f
  | .functionCall _ _ _ _ f => f
  | .functionResponse _ _ _ _ f => f
  | .media _ _ _ _ f => f

/-- Processing of one streamed choice by `OpenAIStream::create` (lines
173-248): text delta, then tool-call deltas, then the optional terminal
finish reason. -/
def processChoice (parse : String → Option Json) (st : OpenAIStreamState)
    (choice : OpenAIStreamChoice) : OpenAIStreamState :=
  let parts0 := st.response.firstParts
  let afterText :=
    match choice.delta with
    | some delta =>
      match delta.content with
      | some dc => processTextDelta parts0 st.currentTextPartIndex dc
      | none => (parts0, st.currentTextPartIndex)
    | none => (parts0, st.currentTextPartIndex)
  let afterTools :=
    match choice.delta with
    | some delta =>
      match delta.tool_calls with
      | some tcs => tcs.foldl processToolCall (afterText.1, st.toolIndexMap)
      | none => (afterText.1, st.toolIndexMap)
    | none => (afterText.1, st.toolIndexMap)
  let final :=
    match choice.finish_reason with
    | some fr => (afterTools.1.map (finishPart parse), openAIFinishFromStream fr)
    | none => (afterTools.1, st.response.finish)
  { response :=
      { st.response.setFirstParts final.1 with finish := final.2 },
    toolIndexMap := afterTools.2,
    currentTextPartIndex := afterText.2 }

/-- Processing of one streamed chunk (lines 162-251): the optional usage
record replaces both usage counters of the snapshot, then each choice is
folded in. -/
def processChunk (parse : String → Option Json) (st : OpenAIStreamState)
    (chunk : OpenAIStreamChunk) : OpenAIStreamState :=
  let st1 :=
    match chunk.usage with
    | some u =>
      { st with response :=
          { st.response with usage :=
              { prompt_tokens := some u.prompt_tokens,
                completion_tokens := some u.completion_tokens } } }
    | none => st
  chunk.choices.foldl (processChoice parse) st1

/-- The initial accumulator state of `OpenAIStream::create` (lines 153-160):
one empty assistant message, default usage, `Unfinished`. -/
def initOpenAIStreamState : OpenAIStreamState :=
  { response :=
      { data := [Message.assistant []],
        usage := { prompt_tokens := none, completion_tokens := none },
        finish := .unfinished },
    toolIndexMap := [],
    currentTextPartIndex := none }

/-- The sequence of snapshots emitted by the stream: one clone of the
accumulated response after every chunk (`yield current_response.clone()`). -/
def streamSteps (parse : String → Option Json) (st : OpenAIStreamState) :
    List OpenAIStreamChunk → List Response
  | [] => []
  | c :: rest =>
    let st' := processChunk parse st c
    st'.response :: streamSteps parse st' rest

/-- The emitted snapshot sequence of `OpenAIStream::create` for a given list
of successfully decoded chunks. -/
def runOpenAIStream (parse : String → Option Json)
    (chunks : List OpenAIStreamChunk) : List Response :=
  streamSteps parse initOpenAIStreamState chunks

/-- The accumulator state after the whole chunk list. -/
def streamFinal (parse : String → Option Json)
    (chunks : List OpenAIStreamChunk) : OpenAIStreamState :=
  chunks.foldl (processChunk parse) initOpenAIStreamState

/-- A chunk carrying one pure text delta, the streaming shape that OpenAI
sends for assistant text. -/
def textChunk (d : String) : OpenAIStreamChunk :=
  { id := "",
    choices := [{ delta := some { content := some d, tool_calls := none },
                  finish_reason := none }],
    usage := none }

/-- The wire shape of one streamed tool-call fragment: vendor index plus a
piece of the arguments string. -/
def toolDelta (d : Nat × String) : OpenAIStreamToolCall :=
  { index := d.1, id := none,
    function := some { name := none, arguments := some d.2 } }

/-- A chunk carrying exactly one tool-call delta. -/
def toolOnlyChunk (d : Nat × String) : OpenAIStreamChunk :=
  { id := "",
    choices := [{ delta := some { content := none, tool_calls := some [toolDelta d] },
                  finish_reason := none }],
    usage := none }

/-- A chunk carrying only a usage record. -/
def usageChunk (u : OpenAIUsage) : OpenAIStreamChunk :=
  { id := "", choices := [], usage := some u }

/-- A terminal chunk carrying only a finish reason. -/
def finishChunk (fr : String) : OpenAIStreamChunk :=
  { id := "",
    choices := [{ delta := none, finish_reason := some fr }],
    usage := none }

/-- Concatenation of a list of strings in order. -/
def concatAll : List String → String
  | [] => ""
  | s :: rest => s ++ concatAll rest

/- Non-streaming response types of `src/api/openai.rs`. -/

/-- `OpenAIFunctionCall` from `src/api/openai.rs` (wire shape; `arguments` is
the raw JSON-encoded string). -/
structure OpenAIFunctionCall where
  name : String
  arguments : String

/-- `OpenAIToolCall` from `src/api/openai.rs`. -/
structure OpenAIToolCall where
  id : String
  call_type : String
  function : OpenAIFunctionCall

/-- `OpenAIResponseMessage` from `src/api/openai.rs`. -/
structure OpenAIResponseMessage where
  role : String
  content : Option String
  tool_calls : Option (List OpenAIToolCall)

/-- `OpenAIChoice` from `src/api/openai.rs`. -/
structure OpenAIChoice where
  message : OpenAIResponseMessage
  finish_reason : Option String

/-- `OpenAIResponse` from `src/api/openai.rs`. -/
structure OpenAIResponse where
  id : String
  choices : List OpenAIChoice
  usage : Option OpenAIUsage

/-- The finish-reason mapping of the non-streaming path of
`src/api/openai.rs` (lines 582-588, inside `From<OpenAIResponse>`). -/
def openAIFinishFromResponse (s : String) : FinishReason :=
  match s with
  | "stop" => .stop
  | "length" => .outputTokens
  | "tool_calls" => .toolCalls
  | "content_filter" => .contentFilter
  | _ => .stop

/-- `From<OpenAIResponse> for Response` (lines 556-606 of
`src/api/openai.rs`): build the canonical response from the first choice
only, with `serde_json::from_str` on tool-call argument strings modelled by
`parse` and its `unwrap_or(Value::Null)` fallback. -/
def openAIResponseToResponse (parse : String → Option Json)
    (resp : OpenAIResponse) : Response :=
  let withChoice : List Part × FinishReason :=
    match resp.choices with
    | [] => ([], .stop)
    | choice :: _ =>
      let contentParts : List Part :=
        match choice.message.content with
        | some content => [.text content true]
        | none => []
      let callParts : List Part :=
        match choice.message.tool_calls with
        | some tool_calls =>
          tool_calls.map (fun tool_call =>
            .functionCall (some tool_call.id) tool_call.function.name
              (match parse tool_call.function.arguments with
               | some v => v
               | none => Json.null)
              none true)
        | none => []
      let fin :=
        match choice.finish_reason with
        | some reason => openAIFinishFromResponse reason
        | none => .stop
      (contentParts ++ callParts, fin)
  let usage :=
    match resp.usage with
    | some u => { prompt_tokens := some u.prompt_tokens,
                  completion_tokens := some u.completion_tokens }
    | none => { prompt_tokens := none, completion_tokens := none }
  { data := [Message.assistant withChoice.1],
    usage := usage,
    finish := withChoice.2 }

/- ------------------------------------------------------------------ -/
/- The agent loop of `src/agent.rs`.                                   -/
/- ------------------------------------------------------------------ -/

/-- Modelled from the spec: the `Part` union of the absent `src/model.rs` in
the shape `src/agent.rs` uses it: `Part::Text` is a plain tuple variant and
`Part::FunctionResponse` carries exactly `id`, `name` and `response` (the
exhaustive struct literal of agent.rs lines 250-254). -/
inductive AgentPart where
  | text (content : String)
  | functionCall (id : Option String) (name : String) (arguments : Json)
      (signature : Option String) (finished : Bool)
  | functionResponse (id : Option String) (name : String) (response : Json)

/-- Modelled from the spec: the `Message` union as used by `src/agent.rs`
(which also constructs `Message::System`). -/
inductive AgentMessage where
  | user (parts : List AgentPart)
  | assistant (parts : List AgentPart)
  | system (parts : List AgentPart)

/-- The parts of a message (`Message::parts`). -/
def AgentMessage.parts : AgentMessage → List AgentPart
  | .user ps => ps
  | .assistant ps => ps
  | .system ps => ps

/-- Modelled from the spec: the `Response` type as used by `src/agent.rs`,
whose `usage` field is optional there (`if let Some(usage) = &response.usage`
and `usage: Some(total_usage)`). -/
structure AgentResponse where
  data : List AgentMessage
  usage : Option Usage
  finish : FinishReason

/-- `ClientError` from `src/client.rs`; the wrapped `reqwest`/`serde_json`
payloads are modelled by their display strings. -/
inductive ClientError where
  | http (msg : String)
  | parse (msg : String)
  | providerError (msg : String)
  | streamCancelled
  | config (msg : String)
deriving Repr, DecidableEq

/-- Modelled from the spec: the `StreamChunk` union of the absent
`src/stream.rs`, with the three variants `src/agent.rs` matches: a data
message, a usage record, a finish reason. -/
inductive StreamChunk where
  | data (message : AgentMessage)
  | usage (u : Usage)
  | finish (reason : FinishReason)

/-- The tool-serving collaborator behind `McpServer::call_tool` as
`src/agent.rs` consumes it: name and JSON arguments to either a JSON result
or a string error. -/
def ToolServer : Type := String → Json → Except String Json

/-- Modelled from the spec: addition on usage counters (`total_usage +=
usage`); the spec fixes usage to be additive across turns, with absent
counters treated as zero contribution. -/
def addOpt : Option Nat → Option Nat → Option Nat
  | some a, some b => some (a + b)
  | some a, none => some a
  | none, b => b

/-- Componentwise usage addition. -/
def addUsage (u v : Usage) : Usage :=
  { prompt_tokens := addOpt u.prompt_tokens v.prompt_tokens,
    completion_tokens := addOpt u.completion_tokens v.completion_tokens }

/-- `Agent::execute_tool` (agent.rs lines 182-188): dispatch to the
configured server, or fail with the fixed string when none is configured. -/
def executeTool (server : Option ToolServer) (name : String) (arguments : Json) :
    Except String Json :=
  match server with
  | some s => s name arguments
  | none => .error "No MCP server configured"

/-- The tool-response message built for one function call by `Agent::chat`
(agent.rs lines 244-268): execute the tool and wrap the result, or an
object with an `error` key on failure, into a `FunctionResponse` part inside
a fresh `User` message. -/
def toolResponseMsg (server : Option ToolServer) (id : Option String)
    (name : String) (arguments : Json) : AgentMessage :=
  .user [.functionResponse id name
    (match executeTool server name arguments with
     | .ok result => result
     | .error e => Json.obj [("error", Json.str e)])]

/-- The inner per-part step of the response-processing loop of `Agent::chat`
(agent.rs lines 237-269): on a `FunctionCall` part, set the
`tool_calls_executed` flag and push the tool-response user message onto both
the history and the output trace. The state is (history, trace, flag). -/
def processPartTool (server : Option ToolServer)
    (st : List AgentMessage × List AgentMessage × Bool) (p : AgentPart) :
    List AgentMessage × List AgentMessage × Bool :=
  match p with
  | .functionCall id name arguments _ _ =>
    let m := toolResponseMsg server id name arguments
    (st.1 ++ [m], st.2.1 ++ [m], true)
  | _ => st

/-- The per-message step of `Agent::chat` (agent.rs lines 233-270): push the
model message onto history and trace, then handle each of its parts. -/
def processRespMsg (server : Option ToolServer)
    (st : List AgentMessage × List AgentMessage × Bool) (msg : AgentMessage) :
    List AgentMessage × List AgentMessage × Bool :=
  msg.parts.foldl (processPartTool server) (st.1 ++ [msg], st.2.1 ++ [msg], st.2.2)

/-- Processing of the whole `response.data` of one iteration of
`Agent::chat`. -/
def processRespData (server : Option ToolServer) (data : List AgentMessage)
    (st : List AgentMessage × List AgentMessage × Bool) :
    List AgentMessage × List AgentMessage × Bool :=
  data.foldl (processRespMsg server) st

/-- A vendor client as `Agent::chat` consumes it: the n-th request (the call
ordinal plus the history sent) yields a canonical response or a client
error. -/
def AgentClient : Type :=
  Nat → List AgentMessage → Except ClientError AgentResponse

/-- The iteration loop of `Agent::chat` (agent.rs lines 221-292), by fuel on
the remaining iterations of `for iteration in 0..self.max_iterations`.
Returns the log of requests issued (the history sent each time, as the mock
client of the crate records it) together with the overall outcome. -/
def chatGo (server : Option ToolServer) (client : AgentClient) :
    Nat → List AgentMessage → List AgentMessage → Usage →
    List (List AgentMessage) →
    List (List AgentMessage) × Except ClientError AgentResponse
  | 0, _, _, _, reqs =>
    (reqs, .error (.config "Max iterations reached in agent loop"))
  | n + 1, msgs, newMsgs, usage, reqs =>
    match client reqs.length msgs with
    | .error e => (reqs ++ [msgs], .error e)
    | .ok resp =>
      let usage1 := match resp.usage with
        | some u => addUsage usage u
        | none => usage
      let st := processRespData server resp.data (msgs, newMsgs, false)
      let reqs1 := reqs ++ [msgs]
      if st.2.2 then
        chatGo server client n st.1 st.2.1 usage1 reqs1
      else
        (reqs1, .ok { data := st.2.1, usage := some usage1, finish := resp.finish })

/-- `Agent::chat` (agent.rs lines 203-292) with an empty resource list (the
resource-loading prelude is the identity for no resources). -/
def chat (server : Option ToolServer) (client : AgentClient)
    (maxIterations : Nat) (messages : List AgentMessage) :
    List (List AgentMessage) × Except ClientError AgentResponse :=
  chatGo server client maxIterations messages []
    { prompt_tokens := some 0, completion_tokens := some 0 } []

/-- The part-merging step of `Agent::chat_stream` (agent.rs lines 359-383):
an incoming part is merged into the last accumulated part when both are
`Text`, or both are `FunctionCall` with string-typed argument buffers;
otherwise it is pushed. -/
def mergeOnePart (target : List AgentPart) (p : AgentPart) : List AgentPart :=
  match target.getLast?, p with
  | some (.text lastText), .text newText =>
    target.dropLast ++ [.text (lastText ++ newText)]
  | some (.functionCall lid lname (Json.str lastS) lsig lfin),
      .functionCall _ _ (Json.str newS) _ _ =>
    target.dropLast ++ [.functionCall lid lname (Json.str (lastS ++ newS)) lsig lfin]
  | _, _ => target ++ [p]

/-- Merge all parts of one streamed data message into the accumulated
assistant parts. -/
def mergeMsgParts (acc : List AgentPart) (msg : AgentMessage) : List AgentPart :=
  msg.parts.foldl mergeOnePart acc

/-- The tool-response message built by `Agent::chat_stream` (agent.rs lines
401-434): unlike the non-streaming path, a string-typed argument buffer is
parsed first (empty object on failure) before dispatch. -/
def streamToolResponseMsg (parse : String → Option Json)
    (server : Option ToolServer) (id : Option String) (name : String)
    (arguments : Json) : AgentMessage :=
  let argsValue :=
    match arguments with
    | Json.str s =>
      match parse s with
      | some v => v
      | none => Json.obj []
    | v => v
  .user [.functionResponse id name
    (match executeTool server name argsValue with
     | .ok response => response
     | .error e => Json.obj [("error", Json.str e)])]

/-- The per-part tool-dispatch step of `Agent::chat_stream` (agent.rs lines
400-436); the state is (history, emitted items, `tool_calls_executed`). -/
def streamProcessPartTool (parse : String → Option Json)
    (server : Option ToolServer)
    (st : List AgentMessage × List (Except ClientError StreamChunk) × Bool)
    (p : AgentPart) :
    List AgentMessage × List (Except ClientError StreamChunk) × Bool :=
  match p with
  | .functionCall id name arguments _ _ =>
    let m := streamToolResponseMsg parse server id name arguments
    (st.1 ++ [m], st.2.1 ++ [.ok (.data m)], true)
  | _ => st

/-- The state of one streaming iteration of `Agent::chat_stream` while the
inner chunk loop runs: emitted items, the accumulated assistant parts, the
recorded finish reason, the running usage total, and the error that aborted
the whole generator, if any. -/
structure StreamIterState where
  yields : List (Except ClientError StreamChunk)
  accParts : List AgentPart
  finishReason : Option FinishReason
  totalUsage : Usage
  aborted : Option ClientError

/-- The inner chunk loop of one iteration of `Agent::chat_stream` (agent.rs
lines 351-393): re-emit and merge data chunks, replace the usage total with
base-plus-chunk and re-emit it, record finish reasons, and abort the whole
generator on an errored chunk. -/
def foldIterChunks (base : Usage) (st : StreamIterState) :
    List (Except ClientError StreamChunk) → StreamIterState
  | [] => st
  | c :: rest =>
    match c with
    | .error e => { st with aborted := some e }
    | .ok (.data m) =>
      foldIterChunks base
        { st with yields := st.yields ++ [.ok (.data m)],
                  accParts := mergeMsgParts st.accParts m } rest
    | .ok (.usage u) =>
      let newTotal := addUsage base u
      foldIterChunks base
        { st with yields := st.yields ++ [.ok (.usage newTotal)],
                  totalUsage := newTotal } rest
    | .ok (.finish r) =>
      foldIterChunks base { st with finishReason := some r } rest

/-- A streaming vendor client as `Agent::chat_stream` consumes it: the n-th
request either fails outright or yields the list of items the SSE stream
produces (each item a decoded chunk or a mid-stream error). -/
def StreamingAgentClient : Type :=
  Nat → List AgentMessage → Except ClientError (List (Except ClientError StreamChunk))

/-- The iteration loop of `Agent::chat_stream` (agent.rs lines 337-455), by
fuel on the remaining iterations. Returns the request log and the full list
of items the generator emits; a terminal error appears as the last item, as
`try_stream!` ends the stream with it. -/
def chatStreamGo (parse : String → Option Json) (server : Option ToolServer)
    (sclient : StreamingAgentClient) :
    Nat → List AgentMessage → Usage → List (List AgentMessage) →
    List (Except ClientError StreamChunk) →
    List (List AgentMessage) × List (Except ClientError StreamChunk)
  | 0, _, _, reqs, emitted =>
    (reqs, emitted ++ [.error (.config "Max iterations reached in agent loop")])
  | n + 1, msgs, total, reqs, emitted =>
    match sclient reqs.length msgs with
    | .error e => (reqs ++ [msgs], emitted ++ [.error e])
    | .ok chunks =>
      let st := foldIterChunks total
        { yields := [], accParts := [], finishReason := none,
          totalUsage := total, aborted := none } chunks
      match st.aborted with
      | some e => (reqs ++ [msgs], emitted ++ st.yields ++ [.error e])
      | none =>
        let msgs1 := msgs ++ [AgentMessage.assistant st.accParts]
        let tst := st.accParts.foldl (streamProcessPartTool parse server)
          (msgs1, [], false)
        let reqs1 := reqs ++ [msgs]
        if tst.2.2 then
          chatStreamGo parse server sclient n tst.1 st.totalUsage reqs1
            (emitted ++ st.yields ++ tst.2.1)
        else
          (reqs1, emitted ++ st.yields ++
            (match st.finishReason with
             | some r => [.ok (.finish r)]
             | none => []))

/-- `Agent::chat_stream` (agent.rs lines 307-455) with an empty resource
list. -/
def chatStream (parse : String → Option Json) (server : Option ToolServer)
    (sclient : StreamingAgentClient) (maxIterations : Nat)
    (messages : List AgentMessage) :
    List (List AgentMessage) × List (Except ClientError StreamChunk) :=
  chatStreamGo parse server sclient maxIterations messages
    { prompt_tokens := some 0, completion_tokens := some 0 } [] []

/- ------------------------------------------------------------------ -/
/- Specification-side helper functions used to state the claims.       -/
/- ------------------------------------------------------------------ -/

/-- Whether a part is a `FunctionCall`. -/
def AgentPart.isFunctionCall : AgentPart → Bool
  | .functionCall _ _ _ _ _ => true
  | _ => false

/-- Whether a message contains a `FunctionCall` part, the condition driving
`tool_calls_executed`. -/
def AgentMessage.hasFunctionCall (m : AgentMessage) : Bool :=
  m.parts.any AgentPart.isFunctionCall

/-- The tool-response messages one part gives rise to in `Agent::chat`:
exactly one for a function call, none otherwise. -/
def partToolMsgs (server : Option ToolServer) : AgentPart → List AgentMessage
  | .functionCall id name arguments _ _ => [toolResponseMsg server id name arguments]
  | _ => []

/-- The messages one iteration of `Agent::chat` appends to history and
trace: each model message followed by one user tool-response message per
function call it contains. -/
def iterMsgs (server : Option ToolServer) (data : List AgentMessage) :
    List AgentMessage :=
  data.flatMap (fun m => m :: m.parts.flatMap (partToolMsgs server))

/-- A two-phase mock client: the first request yields `r0`, every later
request yields `r1`. -/
def client2 (r0 r1 : AgentResponse) : AgentClient :=
  fun n _ => if n = 0 then .ok r0 else .ok r1

/-- The tool-response messages one part gives rise to in `Agent::chat_stream`:
exactly one for a function call, none otherwise. -/
def streamPartToolMsgs (parse : String → Option Json) (server : Option ToolServer) :
    AgentPart → List AgentMessage
  | .functionCall id name arguments _ _ =>
    [streamToolResponseMsg parse server id name arguments]
  | _ => []

/-- Whether a message is a `User` message containing a `FunctionResponse`
part, i.e. a tool-response message of the agent loop. -/
def isToolResponseUserMsg : AgentMessage → Bool
  | .user ps => ps.any (fun p =>
      match p with
      | .functionResponse _ _ _ => true
      | _ => false)
  | _ => false

/-- First-occurrence order of the keys of a list, accumulating the keys
already seen. -/
def keysOrderAux (seen : List Nat) : List Nat → List Nat
  | [] => []
  | k :: ks =>
    if k ∈ seen then keysOrderAux seen ks
    else k :: keysOrderAux (k :: seen) ks

/-- The distinct elements of a list in first-occurrence order. -/
def keysOrder (ks : List Nat) : List Nat :=
  keysOrderAux [] ks

/-- Position of the first occurrence of an element in a list. -/
def posIn : List Nat → Nat → Option Nat
  | [], _ => none
  | k :: ks, j => if j = k then some 0 else (posIn ks j).map (· + 1)

/-- The association list mapping the n-th key of `ks` to position `off + n`;
`mkMap 0 ks` is the extensional content of `tool_index_map` once the keys in
first-occurrence order are `ks`. -/
def mkMap (off : Nat) : List Nat → List (Nat × Nat)
  | [] => []
  | k :: ks => (k, off) :: mkMap (off + 1) ks

/-- The concatenation of the argument fragments carried by the deltas tagged
with index `i`, in stream order. -/
def argsFor (i : Nat) (ds : List (Nat × String)) : String :=
  concatAll ((ds.filter (fun d => d.1 == i)).map Prod.snd)

/-- The function-call part the accumulator is expected to build for index
`i` from the delta list `ds`. -/
def expectedToolPart (i : Nat) (ds : List (Nat × String)) : Part :=
  .functionCall none "" (Json.str (argsFor i ds)) none false

/-- The (parts, tool_index_map) pair after folding a list of tool-call
deltas through the accumulator step. -/
def toolFold (ds : List (Nat × String)) : List Part × List (Nat × Nat) :=
  ds.foldl (fun pm d => processToolCall pm (toolDelta d)) ([], [])

/-- A concrete wire tool call with malformed JSON arguments. -/
def badToolCall : OpenAIToolCall :=
  { id := "t1", call_type := "function",
    function := { name := "f", arguments := "not json" } }

/-- A concrete wire choice requesting that tool call. -/
def toolChoice : OpenAIChoice :=
  { message := { role := "assistant", content := none,
                 tool_calls := some [badToolCall] },
    finish_reason := some "tool_calls" }

/-- A concrete two-choice wire response: the second choice must be ignored. -/
def twoChoiceResponse : OpenAIResponse :=
  { id := "r",
    choices := [toolChoice,
      { message := { role := "assistant", content := some "second",
                     tool_calls := none },
        finish_reason := some "stop" }],
    usage := none }

/-- The accumulator state during a pure text stream: one unfinished text
part holding the accumulated string, with part index 0 tracked. -/
def mkTextState (s : String) (u : Usage) (f : FinishReason) : OpenAIStreamState :=
  { response := { data := [Message.assistant [.text s false]], usage := u, finish := f },
    toolIndexMap := [],
    currentTextPartIndex := some 0 }

/-- The accumulated assistant parts after a list of stream items, stopping
at the first errored item, mirroring the chunk loop of
`Agent::chat_stream`. -/
def accFold (acc : List AgentPart) : List (Except ClientError StreamChunk) → List AgentPart
  | [] => acc
  | .error _ :: _ => acc
  | .ok (.data m) :: rest => accFold (mergeMsgParts acc m) rest
  | .ok (.usage _) :: rest => accFold acc rest
  | .ok (.finish _) :: rest => accFold acc rest

/-- The first mid-stream error of a list of stream items, if any. -/
def firstChunkError : List (Except ClientError StreamChunk) → Option ClientError
  | [] => none
  | .error e :: _ => some e
  | .ok _ :: rest => firstChunkError rest

/- ------------------------------------------------------------------ -/
/- General lemmas about the streaming accumulator.                     -/
/- ------------------------------------------------------------------ -/

theorem streamSteps_length (parse : String → Option Json)
    (chunks : List OpenAIStreamChunk) :
    ∀ st, (streamSteps parse st chunks).length = chunks.length := by
  induction chunks with
  | nil => intro st; rfl
  | cons c rest ih =>
    intro st
    simp only [streamSteps, List.length_cons, ih]

theorem streamSteps_getLast (parse : String → Option Json)
    (chunks : List OpenAIStreamChunk) (hne : chunks ≠ []) :
    ∀ st, (streamSteps parse st chunks).getLast? =
      some (chunks.foldl (processChunk parse) st).response := by
  induction chunks with
  | nil => exact absurd rfl hne
  | cons c rest ih =>
    intro st
    match rest, ih with
    | [], _ => rfl
    | c' :: rest', ih =>
      have h2 : streamSteps parse st (c :: c' :: rest') =
          (processChunk parse st c).response ::
            streamSteps parse (processChunk parse st c) (c' :: rest') := rfl
      rw [h2]
      have h3 : streamSteps parse (processChunk parse st c) (c' :: rest') =
          (processChunk parse (processChunk parse st c) c').response ::
            streamSteps parse
              (processChunk parse (processChunk parse st c) c') rest' := rfl
      rw [h3, List.getLast?_cons_cons, ← h3]
      exact ih (by simp) (processChunk parse st c)

theorem runOpenAIStream_getLast (parse : String → Option Json)
    (chunks : List OpenAIStreamChunk) (hne : chunks ≠ []) :
    (runOpenAIStream parse chunks).getLast? =
      some (streamFinal parse chunks).response :=
  streamSteps_getLast parse chunks hne initOpenAIStreamState

theorem concatAll_append (a b : List String) :
    concatAll (a ++ b) = concatAll a ++ concatAll b := by
  induction a with
  | nil => simp [concatAll]
  | cons s rest ih =>
    show s ++ concatAll (rest ++ b) = s ++ concatAll rest ++ concatAll b
    rw [ih, String.append_assoc]

theorem concatAll_take_drop (n : Nat) (l : List String) :
    concatAll (l.take n) ++ concatAll (l.drop n) = concatAll l := by
  rw [← concatAll_append, List.take_append_drop]

/- ------------------------------------------------------------------ -/
/- Claim C7: terminal-chunk handling.                                  -/
/- ------------------------------------------------------------------ -/

/-- Claim C7: when a streamed chunk carries a finish reason, the accumulator
maps every part of the assistant message through the finishing
transformation: every part ends up with `finished = true`; a `FunctionCall`
part whose arguments are still a raw string buffer gets the buffer parsed,
with the empty JSON object as total fallback when the buffer is not valid
JSON (the accumulator step stays a total function, so the stream does not
fail). -/
theorem openai_stream_finish_marks_parts (parse : String → Option Json) :
    (∀ parts usage fin map tidx fr,
      processChoice parse
        { response := { data := [Message.assistant parts], usage := usage, finish := fin },
          toolIndexMap := map, currentTextPartIndex := tidx }
        { delta := none, finish_reason := some fr } =
      { response := { data := [Message.assistant (parts.map (finishPart parse))],
                      usage := usage, finish := openAIFinishFromStream fr },
        toolIndexMap := map, currentTextPartIndex := tidx })
    ∧ (∀ p : Part, (finishPart parse p).finishedFlag = true)
    ∧ (∀ id name s sig fin, parse s = none →
        finishPart parse (.functionCall id name (.str s) sig fin) =
          .functionCall id name (Json.obj []) sig true)
    ∧ (∀ id name s sig fin v, parse s = some v →
        finishPart parse (.functionCall id name (.str s) sig fin) =
          .functionCall id name v sig true) := by
  refine ⟨fun parts usage fin map tidx fr => rfl, fun p => ?_, ?_, ?_⟩
  · cases p <;> rfl
  · intro id name s sig fin h
    simp [finishPart, h]
  · intro id name s sig fin v h
    simp [finishPart, h]

/-- Witness for C7 at concrete inputs. -/
theorem openai_stream_finish_marks_parts_witness :
    finishPart (fun _ => none) (.functionCall none "f" (.str "oops") none false) =
      .functionCall none "f" (Json.obj []) none true ∧
    finishPart (fun _ => some (Json.num 3)) (.functionCall none "f" (.str "3") none false) =
      .functionCall none "f" (Json.num 3) none true :=
  ⟨(openai_stream_finish_marks_parts (fun _ => none)).2.2.1 none "f" "oops" none false rfl,
   (openai_stream_finish_marks_parts (fun _ => some (Json.num 3))).2.2.2 none "f" "3"
     none false (Json.num 3) rfl⟩

/- ------------------------------------------------------------------ -/
/- Claim C8: the finish-reason mapping table.                          -/
/- ------------------------------------------------------------------ -/

/-- Claim C8: the OpenAI finish-reason mapping is the fixed total table
stop/length/tool_calls/content_filter with `Stop` as the fallback for every
unrecognized wire value, and the streaming path and the non-streaming path
apply the same table. -/
theorem openai_finish_reason_mapping :
    openAIFinishFromStream "stop" = .stop ∧
    openAIFinishFromStream "length" = .outputTokens ∧
    openAIFinishFromStream "tool_calls" = .toolCalls ∧
    openAIFinishFromStream "content_filter" = .contentFilter ∧
    (∀ s, s ≠ "stop" → s ≠ "length" → s ≠ "tool_calls" → s ≠ "content_filter" →
      openAIFinishFromStream s = .stop) ∧
    (∀ s, openAIFinishFromStream s = openAIFinishFromResponse s) := by
  refine ⟨rfl, rfl, rfl, rfl, ?_, ?_⟩
  · intro s h1 h2 h3 h4
    unfold openAIFinishFromStream
    split
    · rfl
    · exact absurd rfl h2
    · exact absurd rfl h3
    · exact absurd rfl h4
    · rfl
  · intro s
    unfold openAIFinishFromStream openAIFinishFromResponse
    split <;> rfl

/-- Witness for C8 at a concrete unrecognized wire value. -/
theorem openai_finish_reason_mapping_witness :
    openAIFinishFromStream "flagged" = .stop :=
  openai_finish_reason_mapping.2.2.2.2.1 "flagged"
    (by decide) (by decide) (by decide) (by decide)

/- ------------------------------------------------------------------ -/
/- Claim C9: usage chunks replace the usage counters.                  -/
/- ------------------------------------------------------------------ -/

theorem processChunk_usageChunk (parse : String → Option Json)
    (st : OpenAIStreamState) (u : OpenAIUsage) :
    processChunk parse st (usageChunk u) =
      { st with response := { st.response with usage :=
          { prompt_tokens := some u.prompt_tokens,
            completion_tokens := some u.completion_tokens } } } := rfl

theorem usage_fold_last (parse : String → Option Json)
    (us : List OpenAIUsage) (u : OpenAIUsage) :
    ∀ st, ((us ++ [u]).map usageChunk).foldl (processChunk parse) st =
      { st with response := { st.response with usage :=
          { prompt_tokens := some u.prompt_tokens,
            completion_tokens := some u.completion_tokens } } } := by
  induction us with
  | nil => intro st; rfl
  | cons v rest ih =>
    intro st
    have h : ((v :: rest ++ [u]).map usageChunk).foldl (processChunk parse) st =
        ((rest ++ [u]).map usageChunk).foldl (processChunk parse)
          (processChunk parse st (usageChunk v)) := rfl
    rw [h, ih]
    rfl

/-- Claim C9: when streamed chunks carry cumulative usage totals, each usage
record replaces (never adds to) the usage counters of the snapshot, so the
final reported counters are exactly the last cumulative values — for
completion counts 100, 120, 150 the final value is 150, not the per-chunk
sum 370. -/
theorem openai_stream_usage_replaces (parse : String → Option Json)
    (us : List OpenAIUsage) (u : OpenAIUsage) :
    (runOpenAIStream parse ((us ++ [u]).map usageChunk)).getLast? =
      some { data := [Message.assistant []],
             usage := { prompt_tokens := some u.prompt_tokens,
                        completion_tokens := some u.completion_tokens },
             finish := .unfinished } := by
  rw [runOpenAIStream_getLast parse _ (by simp)]
  unfold streamFinal
  rw [usage_fold_last parse us u initOpenAIStreamState]
  rfl

/-- Witness for C9 at the cumulative totals 100, 120, 150 of the claim. -/
theorem openai_stream_usage_replaces_witness :
    (runOpenAIStream (fun _ => none)
        (([OpenAIUsage.mk 50 100, OpenAIUsage.mk 60 120] ++
          [OpenAIUsage.mk 70 150]).map usageChunk)).getLast? =
      some { data := [Message.assistant []],
             usage := { prompt_tokens := some 70, completion_tokens := some 150 },
             finish := .unfinished } :=
  openai_stream_usage_replaces (fun _ => none)
    [OpenAIUsage.mk 50 100, OpenAIUsage.mk 60 120] (OpenAIUsage.mk 70 150)

/- ------------------------------------------------------------------ -/
/- Claim C10: the non-streaming conversion.                            -/
/- ------------------------------------------------------------------ -/

/-- Claim C10: the non-streaming conversion of an OpenAI wire response
always produces exactly one `Assistant` message, built from the first choice
only (any further choices are ignored), and a tool call whose wire argument
string fails to parse as JSON yields a `FunctionCall` part with `null`
arguments instead of failing — a different fallback than the empty object of
the streaming path. -/
theorem openai_response_from_first_choice (parse : String → Option Json)
    (resp : OpenAIResponse) :
    ((openAIResponseToResponse parse resp).data.length = 1 ∧
      ∃ parts, (openAIResponseToResponse parse resp).data = [Message.assistant parts])
    ∧ (∀ c rest, resp.choices = c :: rest →
        openAIResponseToResponse parse resp =
          openAIResponseToResponse parse
            { id := resp.id, choices := [c], usage := resp.usage })
    ∧ (∀ c rest tcs tc, resp.choices = c :: rest →
        c.message.tool_calls = some tcs → tc ∈ tcs →
        parse tc.function.arguments = none →
        Part.functionCall (some tc.id) tc.function.name Json.null none true ∈
          (openAIResponseToResponse parse resp).firstParts)
    ∧ Json.null ≠ Json.obj [] := by
  refine ⟨⟨rfl, _, rfl⟩, ?_, ?_, fun h => Json.noConfusion h⟩
  · intro c rest h
    unfold openAIResponseToResponse
    rw [h]
  · intro c rest tcs tc hc htc hmem hparse
    have hp : (openAIResponseToResponse parse resp).firstParts =
        (match c.message.content with
         | some content => [Part.text content true]
         | none => []) ++
        tcs.map (fun tool_call =>
          Part.functionCall (some tool_call.id) tool_call.function.name
            (match parse tool_call.function.arguments with
             | some v => v
             | none => Json.null)
            none true) := by
      unfold openAIResponseToResponse Response.firstParts
      rw [hc]
      simp only [Message.parts, htc]
    rw [hp]
    refine List.mem_append_right _ ?_
    refine List.mem_map.mpr ⟨tc, hmem, ?_⟩
    rw [hparse]

/-- Witness for C10 at a concrete two-choice response whose tool-call
arguments are malformed. -/
theorem openai_response_from_first_choice_witness :
    openAIResponseToResponse (fun _ => none) twoChoiceResponse =
      openAIResponseToResponse (fun _ => none)
        { id := "r", choices := [toolChoice], usage := none } ∧
    Part.functionCall (some "t1") "f" Json.null none true ∈
      (openAIResponseToResponse (fun _ => none) twoChoiceResponse).firstParts :=
  ⟨(openai_response_from_first_choice (fun _ => none) twoChoiceResponse).2.1 _ _ rfl,
   (openai_response_from_first_choice (fun _ => none) twoChoiceResponse).2.2.1 _ _ _ _
     rfl rfl (List.mem_singleton.mpr rfl) rfl⟩

/- ------------------------------------------------------------------ -/
/- Claim C1: text-delta accumulation.                                  -/
/- ------------------------------------------------------------------ -/

theorem processChunk_textChunk_init (parse : String → Option Json) (d : String) :
    processChunk parse initOpenAIStreamState (textChunk d) =
      mkTextState d { prompt_tokens := none, completion_tokens := none } .unfinished := rfl

theorem processChunk_textChunk (parse : String → Option Json) (s d : String)
    (u : Usage) (f : FinishReason) :
    processChunk parse (mkTextState s u f) (textChunk d) =
      mkTextState (s ++ d) u f := rfl

theorem textRun_get (parse : String → Option Json) (ds : List String) :
    ∀ (s : String) (u : Usage) (f : FinishReason) (k : Nat), k < ds.length →
      (streamSteps parse (mkTextState s u f) (ds.map textChunk))[k]? =
        some { data := [Message.assistant [.text (s ++ concatAll (ds.take (k + 1))) false]],
               usage := u, finish := f } := by
  induction ds with
  | nil => intro s u f k hk; exact absurd hk (by simp)
  | cons d rest ih =>
    intro s u f k hk
    have hstep : streamSteps parse (mkTextState s u f) ((d :: rest).map textChunk) =
        (mkTextState (s ++ d) u f).response ::
          streamSteps parse (mkTextState (s ++ d) u f) (rest.map textChunk) := by
      show (processChunk parse (mkTextState s u f) (textChunk d)).response ::
            streamSteps parse (processChunk parse (mkTextState s u f) (textChunk d))
              (rest.map textChunk) = _
      rw [processChunk_textChunk]
    rw [hstep]
    match k with
    | 0 =>
      rw [List.getElem?_cons_zero]
      have hc : concatAll ((d :: rest).take 1) = d := by
        show d ++ concatAll [] = d
        exact String.append_empty d
      rw [hc]
      rfl
    | k + 1 =>
      have hk' : k < rest.length := by simpa using hk
      rw [List.getElem?_cons_succ, ih (s ++ d) u f k hk']
      have hc : concatAll ((d :: rest).take (k + 2)) = d ++ concatAll (rest.take (k + 1)) := rfl
      rw [hc, String.append_assoc]

/-- Claim C1: for a streamed sequence of N text deltas the accumulator
emits one full response snapshot per chunk; the snapshot after chunk k is
the single assistant message holding one text part whose content is the
concatenation of the first k deltas, so the final text equals the
concatenation of all deltas and every intermediate text is a prefix of the
final string, monotonically in stream order. -/
theorem openai_stream_text_accumulation (parse : String → Option Json)
    (ds : List String) :
    (runOpenAIStream parse (ds.map textChunk)).length = ds.length
    ∧ (∀ k, k < ds.length →
        (runOpenAIStream parse (ds.map textChunk))[k]? =
          some { data := [Message.assistant [.text (concatAll (ds.take (k + 1))) false]],
                 usage := { prompt_tokens := none, completion_tokens := none },
                 finish := .unfinished })
    ∧ (∀ k, k < ds.length →
        ∃ rest, concatAll ds = concatAll (ds.take (k + 1)) ++ rest)
    ∧ (∀ j k, j ≤ k → k < ds.length →
        ∃ rest, concatAll (ds.take (k + 1)) = concatAll (ds.take (j + 1)) ++ rest) := by
  refine ⟨by rw [runOpenAIStream, streamSteps_length, List.length_map], ?_, ?_, ?_⟩
  · intro k hk
    match ds, hk with
    | d :: rest, hk =>
      have hstep : runOpenAIStream parse ((d :: rest).map textChunk) =
          (mkTextState d { prompt_tokens := none, completion_tokens := none }
              .unfinished).response ::
            streamSteps parse
              (mkTextState d { prompt_tokens := none, completion_tokens := none }
                .unfinished) (rest.map textChunk) := by
        show (processChunk parse initOpenAIStreamState (textChunk d)).response ::
              streamSteps parse (processChunk parse initOpenAIStreamState (textChunk d))
                (rest.map textChunk) = _
        rw [processChunk_textChunk_init]
      rw [hstep]
      match k with
      | 0 =>
        rw [List.getElem?_cons_zero]
        have hc : concatAll ((d :: rest).take 1) = d := by
          show d ++ concatAll [] = d
          exact String.append_empty d
        rw [hc]
        rfl
      | k + 1 =>
        have hk' : k < rest.length := by simpa using hk
        rw [List.getElem?_cons_succ, textRun_get parse rest d _ _ k hk']
        have hc : concatAll ((d :: rest).take (k + 2)) =
            d ++ concatAll (rest.take (k + 1)) := rfl
        rw [hc]
  · intro k _
    exact ⟨concatAll (ds.drop (k + 1)), (concatAll_take_drop (k + 1) ds).symm⟩
  · intro j k hjk _
    refine ⟨concatAll ((ds.take (k + 1)).drop (j + 1)), ?_⟩
    have h1 : (ds.take (k + 1)).take (j + 1) = ds.take (j + 1) := by
      rw [List.take_take]
      rw [Nat.min_eq_left (Nat.succ_le_succ hjk)]
    calc concatAll (ds.take (k + 1))
        = concatAll ((ds.take (k + 1)).take (j + 1)) ++
            concatAll ((ds.take (k + 1)).drop (j + 1)) :=
          (concatAll_take_drop (j + 1) (ds.take (k + 1))).symm
      _ = concatAll (ds.take (j + 1)) ++ concatAll ((ds.take (k + 1)).drop (j + 1)) := by
          rw [h1]

/-- Witness for C1 on the concrete delta sequence "he", "llo ", "world". -/
theorem openai_stream_text_accumulation_witness :
    (runOpenAIStream (fun _ => none) (["he", "llo ", "world"].map textChunk))[2]? =
      some { data := [Message.assistant
               [.text (concatAll (["he", "llo ", "world"].take 3)) false]],
             usage := { prompt_tokens := none, completion_tokens := none },
             finish := .unfinished } ∧
    (∃ rest, concatAll ["he", "llo ", "world"] =
      concatAll (["he", "llo ", "world"].take 2) ++ rest) :=
  ⟨(openai_stream_text_accumulation (fun _ => none) ["he", "llo ", "world"]).2.1 2
      (by decide),
   (openai_stream_text_accumulation (fun _ => none) ["he", "llo ", "world"]).2.2.1 1
      (by decide)⟩

/- ------------------------------------------------------------------ -/
/- General lemmas about the agent loop (`Agent::chat`).                -/
/- ------------------------------------------------------------------ -/

theorem partTool_fold (server : Option ToolServer) (parts : List AgentPart) :
    ∀ (a b : List AgentMessage) (flag : Bool),
      parts.foldl (processPartTool server) (a, b, flag) =
        (a ++ parts.flatMap (partToolMsgs server),
         b ++ parts.flatMap (partToolMsgs server),
         flag || parts.any AgentPart.isFunctionCall) := by
  induction parts with
  | nil => intro a b flag; simp
  | cons p rest ih =>
    intro a b flag
    match p with
    | .functionCall id name args sig fin =>
      show rest.foldl (processPartTool server)
          (a ++ [toolResponseMsg server id name args],
           b ++ [toolResponseMsg server id name args], true) = _
      rw [ih]
      simp [partToolMsgs, AgentPart.isFunctionCall]
    | .text c =>
      show rest.foldl (processPartTool server) (a, b, flag) = _
      rw [ih]
      simp [partToolMsgs, AgentPart.isFunctionCall]
    | .functionResponse id name r =>
      show rest.foldl (processPartTool server) (a, b, flag) = _
      rw [ih]
      simp [partToolMsgs, AgentPart.isFunctionCall]

theorem processRespMsg_eq (server : Option ToolServer) (msg : AgentMessage)
    (a b : List AgentMessage) (flag : Bool) :
    processRespMsg server (a, b, flag) msg =
      (a ++ (msg :: msg.parts.flatMap (partToolMsgs server)),
       b ++ (msg :: msg.parts.flatMap (partToolMsgs server)),
       flag || msg.hasFunctionCall) := by
  show msg.parts.foldl (processPartTool server) (a ++ [msg], b ++ [msg], flag) = _
  rw [partTool_fold]
  simp [AgentMessage.hasFunctionCall]

theorem processRespData_eq (server : Option ToolServer) (data : List AgentMessage) :
    ∀ (a b : List AgentMessage) (flag : Bool),
      processRespData server data (a, b, flag) =
        (a ++ iterMsgs server data, b ++ iterMsgs server data,
         flag || data.any AgentMessage.hasFunctionCall) := by
  induction data with
  | nil => intro a b flag; simp [processRespData, iterMsgs]
  | cons m rest ih =>
    intro a b flag
    show processRespData server rest (processRespMsg server (a, b, flag) m) = _
    rw [processRespMsg_eq, ih]
    simp [iterMsgs, Bool.or_assoc]

theorem chatGo_succ_err (server : Option ToolServer) (client : AgentClient)
    (n : Nat) (msgs newMsgs : List AgentMessage) (usage : Usage)
    (reqs : List (List AgentMessage)) (e : ClientError)
    (hc : client reqs.length msgs = .error e) :
    chatGo server client (n + 1) msgs newMsgs usage reqs = (reqs ++ [msgs], .error e) := by
  unfold chatGo
  rw [hc]

theorem chatGo_succ_ok (server : Option ToolServer) (client : AgentClient)
    (n : Nat) (msgs newMsgs : List AgentMessage) (usage : Usage)
    (reqs : List (List AgentMessage)) (resp : AgentResponse)
    (hc : client reqs.length msgs = .ok resp) :
    chatGo server client (n + 1) msgs newMsgs usage reqs =
      (if (processRespData server resp.data (msgs, newMsgs, false)).2.2 then
        chatGo server client n
          (processRespData server resp.data (msgs, newMsgs, false)).1
          (processRespData server resp.data (msgs, newMsgs, false)).2.1
          (match resp.usage with | some u => addUsage usage u | none => usage)
          (reqs ++ [msgs])
      else
        (reqs ++ [msgs],
         .ok { data := (processRespData server resp.data (msgs, newMsgs, false)).2.1,
               usage := some (match resp.usage with
                 | some u => addUsage usage u
                 | none => usage),
               finish := resp.finish })) := by
  conv_lhs => unfold chatGo
  rw [hc]

theorem chatGo_always_fc (server : Option ToolServer) (client : AgentClient)
    (H : ∀ n ms, ∃ resp, client n ms = Except.ok resp ∧
      resp.data.any AgentMessage.hasFunctionCall = true) :
    ∀ (k : Nat) (msgs newMsgs : List AgentMessage) (usage : Usage)
      (reqs : List (List AgentMessage)), ∃ reqs',
      chatGo server client k msgs newMsgs usage reqs =
        (reqs', .error (.config "Max iterations reached in agent loop")) ∧
      reqs'.length = reqs.length + k := by
  intro k
  induction k with
  | zero => intro msgs newMsgs usage reqs; exact ⟨reqs, rfl, rfl⟩
  | succ n ih =>
    intro msgs newMsgs usage reqs
    obtain ⟨resp, hc, hfc⟩ := H reqs.length msgs
    have hflag : (processRespData server resp.data (msgs, newMsgs, false)).2.2 = true := by
      rw [processRespData_eq]
      simpa using hfc
    obtain ⟨reqs', h1, h2⟩ := ih
      (processRespData server resp.data (msgs, newMsgs, false)).1
      (processRespData server resp.data (msgs, newMsgs, false)).2.1
      (match resp.usage with | some u => addUsage usage u | none => usage)
      (reqs ++ [msgs])
    refine ⟨reqs', ?_, ?_⟩
    · rw [chatGo_succ_ok server client n msgs newMsgs usage reqs resp hc]
      rw [hflag]
      simpa using h1
    · rw [h2]
      simp
      omega

theorem chatGo_error_source (server : Option ToolServer) (client : AgentClient) :
    ∀ (k : Nat) (msgs newMsgs : List AgentMessage) (usage : Usage)
      (reqs : List (List AgentMessage)) (e : ClientError),
      (chatGo server client k msgs newMsgs usage reqs).2 = .error e →
      e = .config "Max iterations reached in agent loop" ∨
      ∃ n ms, client n ms = .error e := by
  intro k
  induction k with
  | zero =>
    intro msgs newMsgs usage reqs e h
    left
    have h2 : (Except.error (ClientError.config "Max iterations reached in agent loop") :
        Except ClientError AgentResponse) = Except.error e := h
    exact (Except.error.inj h2).symm
  | succ n ih =>
    intro msgs newMsgs usage reqs e h
    cases hcl : client reqs.length msgs with
    | error e0 =>
      rw [chatGo_succ_err server client n msgs newMsgs usage reqs e0 hcl] at h
      right
      refine ⟨reqs.length, msgs, ?_⟩
      rw [hcl]
      have h3 : (Except.error e0 : Except ClientError AgentResponse) = Except.error e := h
      rw [Except.error.inj h3]
    | ok resp =>
      rw [chatGo_succ_ok server client n msgs newMsgs usage reqs resp hcl] at h
      by_cases hflag : (processRespData server resp.data (msgs, newMsgs, false)).2.2 = true
      · rw [hflag] at h
        simp only [if_true] at h
        exact ih _ _ _ _ e h
      · rw [Bool.not_eq_true] at hflag
        rw [hflag] at h
        simp only [Bool.false_eq_true, if_false] at h
        exact absurd h (by simp)

/- ------------------------------------------------------------------ -/
/- General lemmas about the streaming agent loop.                      -/
/- ------------------------------------------------------------------ -/

theorem foldIterChunks_accParts (base : Usage)
    (chunks : List (Except ClientError StreamChunk)) :
    ∀ st, (foldIterChunks base st chunks).accParts = accFold st.accParts chunks := by
  induction chunks with
  | nil => intro st; rfl
  | cons c rest ih =>
    intro st
    match c with
    | .error e => rfl
    | .ok (.data m) => exact ih _
    | .ok (.usage u) => exact ih _
    | .ok (.finish r) => exact ih _

theorem foldIterChunks_aborted (base : Usage)
    (chunks : List (Except ClientError StreamChunk)) :
    ∀ st, st.aborted = none →
      (foldIterChunks base st chunks).aborted = firstChunkError chunks := by
  induction chunks with
  | nil => intro st h; exact h
  | cons c rest ih =>
    intro st h
    match c with
    | .error e => rfl
    | .ok (.data m) => exact ih _ h
    | .ok (.usage u) => exact ih _ h
    | .ok (.finish r) => exact ih _ h

theorem firstChunkError_mem (chunks : List (Except ClientError StreamChunk))
    (e : ClientError) (h : firstChunkError chunks = some e) :
    Except.error e ∈ chunks := by
  induction chunks with
  | nil => exact absurd h (by simp [firstChunkError])
  | cons c rest ih =>
    match c with
    | .error e0 =>
      have h2 : some e0 = some e := h
      rw [← Option.some.inj h2]
      exact List.mem_cons_self _ _
    | .ok x =>
      have h2 : firstChunkError rest = some e := h
      exact List.mem_cons_of_mem _ (ih h2)

theorem foldIterChunks_yields_errors (base : Usage)
    (chunks : List (Except ClientError StreamChunk)) :
    ∀ st e, Except.error e ∈ (foldIterChunks base st chunks).yields →
      Except.error e ∈ st.yields ∨ Except.error e ∈ chunks := by
  induction chunks with
  | nil => intro st e h; exact Or.inl h
  | cons c rest ih =>
    intro st e h
    match c with
    | .error e0 => exact Or.inl h
    | .ok (.data m) =>
      rcases ih _ e h with h2 | h2
      · rcases List.mem_append.mp h2 with h3 | h3
        · exact Or.inl h3
        · exact absurd (List.mem_singleton.mp h3) (by simp)
      · exact Or.inr (List.mem_cons_of_mem _ h2)
    | .ok (.usage u) =>
      rcases ih _ e h with h2 | h2
      · rcases List.mem_append.mp h2 with h3 | h3
        · exact Or.inl h3
        · exact absurd (List.mem_singleton.mp h3) (by simp)
      · exact Or.inr (List.mem_cons_of_mem _ h2)
    | .ok (.finish r) =>
      rcases ih _ e h with h2 | h2
      · exact Or.inl h2
      · exact Or.inr (List.mem_cons_of_mem _ h2)

theorem streamPartTool_fold (parse : String → Option Json)
    (server : Option ToolServer) (parts : List AgentPart) :
    ∀ (a : List AgentMessage) (ys : List (Except ClientError StreamChunk))
      (flag : Bool),
      parts.foldl (streamProcessPartTool parse server) (a, ys, flag) =
        (a ++ parts.flatMap (streamPartToolMsgs parse server),
         ys ++ (parts.flatMap (streamPartToolMsgs parse server)).map
           (fun m => Except.ok (StreamChunk.data m)),
         flag || parts.any AgentPart.isFunctionCall) := by
  induction parts with
  | nil => intro a ys flag; simp
  | cons p rest ih =>
    intro a ys flag
    match p with
    | .functionCall id name args sig fin =>
      show rest.foldl (streamProcessPartTool parse server)
          (a ++ [streamToolResponseMsg parse server id name args],
           ys ++ [.ok (.data (streamToolResponseMsg parse server id name args))],
           true) = _
      rw [ih]
      simp [streamPartToolMsgs, AgentPart.isFunctionCall]
    | .text c =>
      show rest.foldl (streamProcessPartTool parse server) (a, ys, flag) = _
      rw [ih]
      simp [streamPartToolMsgs, AgentPart.isFunctionCall]
    | .functionResponse id name r =>
      show rest.foldl (streamProcessPartTool parse server) (a, ys, flag) = _
      rw [ih]
      simp [streamPartToolMsgs, AgentPart.isFunctionCall]

theorem chatStreamGo_succ_err (parse : String → Option Json)
    (server : Option ToolServer) (sclient : StreamingAgentClient) (n : Nat)
    (msgs : List AgentMessage) (total : Usage) (reqs : List (List AgentMessage))
    (emitted : List (Except ClientError StreamChunk)) (e : ClientError)
    (hc : sclient reqs.length msgs = .error e) :
    chatStreamGo parse server sclient (n + 1) msgs total reqs emitted =
      (reqs ++ [msgs], emitted ++ [.error e]) := by
  conv_lhs => unfold chatStreamGo
  rw [hc]

theorem chatStreamGo_succ_ok_abort (parse : String → Option Json)
    (server : Option ToolServer) (sclient : StreamingAgentClient) (n : Nat)
    (msgs : List AgentMessage) (total : Usage) (reqs : List (List AgentMessage))
    (emitted : List (Except ClientError StreamChunk))
    (chunks : List (Except ClientError StreamChunk)) (e : ClientError)
    (hc : sclient reqs.length msgs = .ok chunks)
    (hab : (foldIterChunks total
      { yields := [], accParts := [], finishReason := none,
        totalUsage := total, aborted := none } chunks).aborted = some e) :
    chatStreamGo parse server sclient (n + 1) msgs total reqs emitted =
      (reqs ++ [msgs],
       emitted ++ (foldIterChunks total
         { yields := [], accParts := [], finishReason := none,
           totalUsage := total, aborted := none } chunks).yields ++ [.error e]) := by
  conv_lhs => unfold chatStreamGo; rw [hc]
  simp only [hab]

theorem chatStreamGo_succ_ok_cont (parse : String → Option Json)
    (server : Option ToolServer) (sclient : StreamingAgentClient) (n : Nat)
    (msgs : List AgentMessage) (total : Usage) (reqs : List (List AgentMessage))
    (emitted : List (Except ClientError StreamChunk))
    (chunks : List (Except ClientError StreamChunk))
    (hc : sclient reqs.length msgs = .ok chunks)
    (hab : (foldIterChunks total
      { yields := [], accParts := [], finishReason := none,
        totalUsage := total, aborted := none } chunks).aborted = none) :
    chatStreamGo parse server sclient (n + 1) msgs total reqs emitted =
      (if ((foldIterChunks total
            { yields := [], accParts := [], finishReason := none,
              totalUsage := total, aborted := none } chunks).accParts.foldl
            (streamProcessPartTool parse server)
            (msgs ++ [AgentMessage.assistant (foldIterChunks total
              { yields := [], accParts := [], finishReason := none,
                totalUsage := total, aborted := none } chunks).accParts],
             [], false)).2.2 then
        chatStreamGo parse server sclient n
          ((foldIterChunks total
            { yields := [], accParts := [], finishReason := none,
              totalUsage := total, aborted := none } chunks).accParts.foldl
            (streamProcessPartTool parse server)
            (msgs ++ [AgentMessage.assistant (foldIterChunks total
              { yields := [], accParts := [], finishReason := none,
                totalUsage := total, aborted := none } chunks).accParts],
             [], false)).1
          (foldIterChunks total
            { yields := [], accParts := [], finishReason := none,
              totalUsage := total, aborted := none } chunks).totalUsage
          (reqs ++ [msgs])
          (emitted ++ (foldIterChunks total
            { yields := [], accParts := [], finishReason := none,
              totalUsage := total, aborted := none } chunks).yields ++
            ((foldIterChunks total
              { yields := [], accParts := [], finishReason := none,
                totalUsage := total, aborted := none } chunks).accParts.foldl
              (streamProcessPartTool parse server)
              (msgs ++ [AgentMessage.assistant (foldIterChunks total
                { yields := [], accParts := [], finishReason := none,
                  totalUsage := total, aborted := none } chunks).accParts],
               [], false)).2.1)
      else
        (reqs ++ [msgs],
         emitted ++ (foldIterChunks total
           { yields := [], accParts := [], finishReason := none,
             totalUsage := total, aborted := none } chunks).yields ++
           (match (foldIterChunks total
             { yields := [], accParts := [], finishReason := none,
               totalUsage := total, aborted := none } chunks).finishReason with
            | some r => [.ok (.finish r)]
            | none => []))) := by
  conv_lhs => unfold chatStreamGo; rw [hc]
  simp only [hab]

theorem chatStreamGo_always_fc (parse : String → Option Json)
    (server : Option ToolServer) (sclient : StreamingAgentClient)
    (H : ∀ n ms, ∃ chunks, sclient n ms = Except.ok chunks ∧
      firstChunkError chunks = none ∧
      (accFold [] chunks).any AgentPart.isFunctionCall = true) :
    ∀ (k : Nat) (msgs : List AgentMessage) (total : Usage)
      (reqs : List (List AgentMessage))
      (emitted : List (Except ClientError StreamChunk)),
      (chatStreamGo parse server sclient k msgs total reqs emitted).1.length =
        reqs.length + k ∧
      (chatStreamGo parse server sclient k msgs total reqs emitted).2.getLast? =
        some (.error (.config "Max iterations reached in agent loop")) := by
  intro k
  induction k with
  | zero =>
    intro msgs total reqs emitted
    exact ⟨rfl, by simp [chatStreamGo]⟩
  | succ n ih =>
    intro msgs total reqs emitted
    obtain ⟨chunks, hc, hab, hfc⟩ := H reqs.length msgs
    have habort : (foldIterChunks total
        { yields := [], accParts := [], finishReason := none,
          totalUsage := total, aborted := none } chunks).aborted = none := by
      rw [foldIterChunks_aborted total chunks _ rfl]
      exact hab
    rw [chatStreamGo_succ_ok_cont parse server sclient n msgs total reqs emitted
      chunks hc habort]
    have hacc : (foldIterChunks total
        { yields := [], accParts := [], finishReason := none,
          totalUsage := total, aborted := none } chunks).accParts =
        accFold [] chunks := foldIterChunks_accParts total chunks _
    have hflag : ((foldIterChunks total
        { yields := [], accParts := [], finishReason := none,
          totalUsage := total, aborted := none } chunks).accParts.foldl
          (streamProcessPartTool parse server)
          (msgs ++ [AgentMessage.assistant (foldIterChunks total
            { yields := [], accParts := [], finishReason := none,
              totalUsage := total, aborted := none } chunks).accParts],
           [], false)).2.2 = true := by
      rw [streamPartTool_fold]
      rw [hacc]
      simpa using hfc
    rw [hflag]
    simp only [if_true]
    refine ⟨?_, (ih _ _ _ _).2⟩
    rw [(ih _ _ _ _).1]
    simp
    omega

theorem chatStreamGo_error_source (parse : String → Option Json)
    (server : Option ToolServer) (sclient : StreamingAgentClient) :
    ∀ (k : Nat) (msgs : List AgentMessage) (total : Usage)
      (reqs : List (List AgentMessage))
      (emitted : List (Except ClientError StreamChunk)) (e : ClientError),
      Except.error e ∈ (chatStreamGo parse server sclient k msgs total reqs emitted).2 →
      Except.error e ∈ emitted ∨
      e = .config "Max iterations reached in agent loop" ∨
      (∃ n ms, sclient n ms = .error e) ∨
      (∃ n ms chunks, sclient n ms = .ok chunks ∧ Except.error e ∈ chunks) := by
  intro k
  induction k with
  | zero =>
    intro msgs total reqs emitted e h
    have h2 : Except.error e ∈ emitted ++
        [Except.error (ClientError.config "Max iterations reached in agent loop")] := h
    rcases List.mem_append.mp h2 with h3 | h3
    · exact Or.inl h3
    · exact Or.inr (Or.inl (Except.error.inj (List.mem_singleton.mp h3)))
  | succ n ih =>
    intro msgs total reqs emitted e h
    cases hcl : sclient reqs.length msgs with
    | error e0 =>
      rw [chatStreamGo_succ_err parse server sclient n msgs total reqs emitted e0 hcl] at h
      rcases List.mem_append.mp h with h3 | h3
      · exact Or.inl h3
      · refine Or.inr (Or.inr (Or.inl ⟨reqs.length, msgs, ?_⟩))
        rw [hcl, Except.error.inj (List.mem_singleton.mp h3)]
    | ok chunks =>
      cases habort : (foldIterChunks total
          { yields := [], accParts := [], finishReason := none,
            totalUsage := total, aborted := none } chunks).aborted with
      | some e0 =>
        rw [chatStreamGo_succ_ok_abort parse server sclient n msgs total reqs emitted
          chunks e0 hcl habort] at h
        rcases List.mem_append.mp h with h3 | h3
        · rcases List.mem_append.mp h3 with h4 | h4
          · exact Or.inl h4
          · rcases foldIterChunks_yields_errors total chunks _ e h4 with h5 | h5
            · exact absurd h5 (by simp)
            · exact Or.inr (Or.inr (Or.inr ⟨reqs.length, msgs, chunks, hcl, h5⟩))
        · have he : e = e0 := Except.error.inj (List.mem_singleton.mp h3)
          have hfe : firstChunkError chunks = some e0 := by
            rw [← foldIterChunks_aborted total chunks
              { yields := [], accParts := [], finishReason := none,
                totalUsage := total, aborted := none } rfl]
            exact habort
          refine Or.inr (Or.inr (Or.inr ⟨reqs.length, msgs, chunks, hcl, ?_⟩))
          rw [he]
          exact firstChunkError_mem chunks e0 hfe
      | none =>
        rw [chatStreamGo_succ_ok_cont parse server sclient n msgs total reqs emitted
          chunks hcl habort] at h
        by_cases hflag : ((foldIterChunks total
            { yields := [], accParts := [], finishReason := none,
              totalUsage := total, aborted := none } chunks).accParts.foldl
              (streamProcessPartTool parse server)
              (msgs ++ [AgentMessage.assistant (foldIterChunks total
                { yields := [], accParts := [], finishReason := none,
                  totalUsage := total, aborted := none } chunks).accParts],
               [], false)).2.2 = true
        · rw [hflag] at h
          simp only [if_true] at h
          rcases ih _ _ _ _ e h with h3 | h3
          · rcases List.mem_append.mp h3 with h4 | h4
            · rcases List.mem_append.mp h4 with h5 | h5
              · exact Or.inl h5
              · rcases foldIterChunks_yields_errors total chunks _ e h5 with h6 | h6
                · exact absurd h6 (by simp)
                · exact Or.inr (Or.inr (Or.inr ⟨reqs.length, msgs, chunks, hcl, h6⟩))
            · rw [streamPartTool_fold] at h4
              have h5 : Except.error e ∈
                  ((foldIterChunks total
                    { yields := [], accParts := [], finishReason := none,
                      totalUsage := total, aborted := none } chunks).accParts.flatMap
                    (streamPartToolMsgs parse server)).map
                    (fun m => Except.ok (StreamChunk.data m)) := by
                simp only [List.mem_append] at h4
                rcases h4 with h4 | h4
                · exact absurd h4 (by simp)
                · exact h4
              obtain ⟨m, _, hm2⟩ := List.mem_map.mp h5
              exact absurd hm2 (by simp)
          · exact Or.inr h3
        · rw [Bool.not_eq_true] at hflag
          rw [hflag] at h
          simp only [Bool.false_eq_true, if_false] at h
          rcases List.mem_append.mp h with h3 | h3
          · rcases List.mem_append.mp h3 with h4 | h4
            · exact Or.inl h4
            · rcases foldIterChunks_yields_errors total chunks _ e h4 with h5 | h5
              · exact absurd h5 (by simp)
              · exact Or.inr (Or.inr (Or.inr ⟨reqs.length, msgs, chunks, hcl, h5⟩))
          · cases hfin : (foldIterChunks total
                { yields := [], accParts := [], finishReason := none,
                  totalUsage := total, aborted := none } chunks).finishReason with
            | some r =>
              rw [hfin] at h3
              exact absurd (List.mem_singleton.mp h3) (by simp)
            | none =>
              rw [hfin] at h3
              exact absurd h3 (by simp)

theorem chat_stops_after_two (server : Option ToolServer) (client : AgentClient)
    (msgs : List AgentMessage) (resp0 resp1 : AgentResponse) (k : Nat)
    (hc0 : client 0 msgs = .ok resp0)
    (hfc0 : resp0.data.any AgentMessage.hasFunctionCall = true)
    (hc1 : client 1 (msgs ++ iterMsgs server resp0.data) = .ok resp1)
    (hfc1 : resp1.data.any AgentMessage.hasFunctionCall = false) :
    (chat server client (k + 2) msgs).1.length = 2 ∧
    ∃ u, (chat server client (k + 2) msgs).2 =
      .ok { data := iterMsgs server resp0.data ++ iterMsgs server resp1.data,
            usage := u, finish := resp1.finish } := by
  have hstart : chat server client (k + 2) msgs =
      chatGo server client (k + 1 + 1) msgs []
        { prompt_tokens := some 0, completion_tokens := some 0 } [] := rfl
  have h1 := chatGo_succ_ok server client (k + 1) msgs []
    { prompt_tokens := some 0, completion_tokens := some 0 } [] resp0 hc0
  have hflag1 : (processRespData server resp0.data (msgs, [], false)).2.2 = true := by
    rw [processRespData_eq]
    simpa using hfc0
  rw [hflag1] at h1
  simp only [if_true] at h1
  rw [processRespData_eq] at h1
  have hc1a : client ([] ++ [msgs] :
      List (List AgentMessage)).length (msgs ++ iterMsgs server resp0.data) =
      Except.ok resp1 := by simpa using hc1
  have h2 := chatGo_succ_ok server client k (msgs ++ iterMsgs server resp0.data)
    ([] ++ iterMsgs server resp0.data)
    (match resp0.usage with
     | some u => addUsage { prompt_tokens := some 0, completion_tokens := some 0 } u
     | none => { prompt_tokens := some 0, completion_tokens := some 0 }) ([] ++ [msgs])
    resp1 hc1a
  have hflag2 : (processRespData server resp1.data
      (msgs ++ iterMsgs server resp0.data, [] ++ iterMsgs server resp0.data,
       false)).2.2 = false := by
    rw [processRespData_eq]
    simpa using hfc1
  rw [hflag2] at h2
  simp only [Bool.false_eq_true, if_false] at h2
  rw [processRespData_eq] at h2
  rw [hstart, h1, h2]
  refine ⟨by simp, ⟨some (match resp1.usage with
    | some u => addUsage (match resp0.usage with
      | some u0 => addUsage { prompt_tokens := some 0, completion_tokens := some 0 } u0
      | none => { prompt_tokens := some 0, completion_tokens := some 0 }) u
    | none => (match resp0.usage with
      | some u0 => addUsage { prompt_tokens := some 0, completion_tokens := some 0 } u0
      | none => { prompt_tokens := some 0, completion_tokens := some 0 })), ?_⟩⟩
  simp

/- ------------------------------------------------------------------ -/
/- Claim C3: tool-execution failures stay inside the loop.             -/
/- ------------------------------------------------------------------ -/

/-- Claim C3: when the tool-serving collaborator fails on a dispatched
call, neither `chat` nor `chat_stream` surfaces that failure to the caller:
the failing call produces a tool-response `User` message whose
`FunctionResponse.response` is a JSON object with an `error` key; the only
errors either loop can return are client errors and the max-iterations
configuration error (so the loop continues past tool failures, as the
two-iteration run of the last conjunct shows). -/
theorem agent_tool_error_not_propagated :
    (∀ (server : Option ToolServer) (id : Option String) (name : String)
       (args : Json) (sig : Option String) (fin : Bool) (e : String),
       executeTool server name args = .error e →
       partToolMsgs server (.functionCall id name args sig fin) =
         [.user [.functionResponse id name (Json.obj [("error", Json.str e)])]])
    ∧ (∀ (parse : String → Option Json) (server : Option ToolServer)
         (id : Option String) (name : String) (args : Json) (sig : Option String)
         (fin : Bool) (e : String),
        executeTool server name (match args with
          | Json.str s => (match parse s with | some v => v | none => Json.obj [])
          | v => v) = .error e →
        streamPartToolMsgs parse server (.functionCall id name args sig fin) =
          [.user [.functionResponse id name (Json.obj [("error", Json.str e)])]])
    ∧ (∀ (server : Option ToolServer) (client : AgentClient) (maxIterations : Nat)
         (msgs : List AgentMessage) (e : ClientError),
        (chat server client maxIterations msgs).2 = .error e →
        e = .config "Max iterations reached in agent loop" ∨
        ∃ n ms, client n ms = .error e)
    ∧ (∀ (parse : String → Option Json) (server : Option ToolServer)
         (sclient : StreamingAgentClient) (maxIterations : Nat)
         (msgs : List AgentMessage) (e : ClientError),
        Except.error e ∈ (chatStream parse server sclient maxIterations msgs).2 →
        e = .config "Max iterations reached in agent loop" ∨
        (∃ n ms, sclient n ms = .error e) ∨
        (∃ n ms chunks, sclient n ms = .ok chunks ∧ Except.error e ∈ chunks))
    ∧ (∀ (server : Option ToolServer) (respFC respStop : AgentResponse)
         (msgs : List AgentMessage),
        respFC.data.any AgentMessage.hasFunctionCall = true →
        respStop.data.any AgentMessage.hasFunctionCall = false →
        (chat server (client2 respFC respStop) 10 msgs).1.length = 2 ∧
        ∃ r, (chat server (client2 respFC respStop) 10 msgs).2 = .ok r) := by
  refine ⟨?_, ?_, ?_, ?_, ?_⟩
  · intro server id name args sig fin e h
    simp [partToolMsgs, toolResponseMsg, h]
  · intro parse server id name args sig fin e h
    simp only [streamPartToolMsgs, streamToolResponseMsg]
    rw [h]
  · intro server client maxIterations msgs e h
    exact chatGo_error_source server client maxIterations msgs []
      { prompt_tokens := some 0, completion_tokens := some 0 } [] e h
  · intro parse server sclient maxIterations msgs e h
    rcases chatStreamGo_error_source parse server sclient maxIterations msgs
      { prompt_tokens := some 0, completion_tokens := some 0 } [] [] e h with
      h2 | h2 | h2 | h2
    · exact absurd h2 (by simp)
    · exact Or.inl h2
    · exact Or.inr (Or.inl h2)
    · exact Or.inr (Or.inr h2)
  · intro server respFC respStop msgs hFC hNo
    obtain ⟨h1, u, h2⟩ := chat_stops_after_two server (client2 respFC respStop) msgs
      respFC respStop 8 rfl hFC rfl hNo
    exact ⟨h1, _, h2⟩

/-- Witness for C3: a server whose single tool always fails, a client that
requests that tool once and then stops. -/
theorem agent_tool_error_not_propagated_witness :
    partToolMsgs (some (fun _ _ => .error "boom"))
        (.functionCall (some "c1") "f" Json.null none true) =
      [.user [.functionResponse (some "c1") "f"
        (Json.obj [("error", Json.str "boom")])]] ∧
    (chat (some (fun _ _ => .error "boom"))
        (client2
          { data := [.assistant [.functionCall (some "c1") "f" Json.null none true]],
            usage := none, finish := .toolCalls }
          { data := [.assistant [.text "done"]], usage := none, finish := .stop })
        10 []).1.length = 2 := by
  refine ⟨agent_tool_error_not_propagated.1 (some (fun _ _ => .error "boom"))
    (some "c1") "f" Json.null none true "boom" rfl, ?_⟩
  exact (agent_tool_error_not_propagated.2.2.2.2 (some (fun _ _ => .error "boom"))
    { data := [.assistant [.functionCall (some "c1") "f" Json.null none true]],
      usage := none, finish := .toolCalls }
    { data := [.assistant [.text "done"]], usage := none, finish := .stop }
    [] rfl rfl).1

/- ------------------------------------------------------------------ -/
/- Claim C4: the iteration bound.                                      -/
/- ------------------------------------------------------------------ -/

/-- Claim C4: with a client whose every response requests a tool call, the
agent loop performs exactly `max_iterations` requests (so exactly 2 when
`max_iterations = 2`, never a third) and then fails with the configuration
error about reaching the iteration bound — in both the non-streaming and
the streaming loop, where the error arrives as the final stream item. -/
theorem agent_max_iterations_bound :
    (∀ (server : Option ToolServer) (client : AgentClient) (maxIterations : Nat)
       (msgs : List AgentMessage),
      (∀ n ms, ∃ resp, client n ms = Except.ok resp ∧
        resp.data.any AgentMessage.hasFunctionCall = true) →
      (chat server client maxIterations msgs).1.length = maxIterations ∧
      (chat server client maxIterations msgs).2 =
        .error (.config "Max iterations reached in agent loop"))
    ∧ (∀ (parse : String → Option Json) (server : Option ToolServer)
         (sclient : StreamingAgentClient) (maxIterations : Nat)
         (msgs : List AgentMessage),
      (∀ n ms, ∃ chunks, sclient n ms = Except.ok chunks ∧
        firstChunkError chunks = none ∧
        (accFold [] chunks).any AgentPart.isFunctionCall = true) →
      (chatStream parse server sclient maxIterations msgs).1.length = maxIterations ∧
      (chatStream parse server sclient maxIterations msgs).2.getLast? =
        some (.error (.config "Max iterations reached in agent loop"))) := by
  constructor
  · intro server client maxIterations msgs H
    obtain ⟨reqs', h1, h2⟩ := chatGo_always_fc server client H maxIterations msgs []
      { prompt_tokens := some 0, completion_tokens := some 0 } []
    constructor
    · show (chatGo server client maxIterations msgs []
        { prompt_tokens := some 0, completion_tokens := some 0 } []).1.length = _
      rw [h1]
      simpa using h2
    · show (chatGo server client maxIterations msgs []
        { prompt_tokens := some 0, completion_tokens := some 0 } []).2 = _
      rw [h1]
  · intro parse server sclient maxIterations msgs H
    have h := chatStreamGo_always_fc parse server sclient H maxIterations msgs
      { prompt_tokens := some 0, completion_tokens := some 0 } [] []
    exact ⟨by simpa using h.1, h.2⟩

/-- Witness for C4 with `max_iterations = 2` and concrete always-tool-call
clients, non-streaming and streaming. -/
theorem agent_max_iterations_bound_witness :
    ((chat none (fun _ _ => Except.ok
        { data := [.assistant [.functionCall (some "c") "f" Json.null none true]],
          usage := none, finish := .toolCalls }) 2 []).1.length = 2 ∧
      (chat none (fun _ _ => Except.ok
        { data := [.assistant [.functionCall (some "c") "f" Json.null none true]],
          usage := none, finish := .toolCalls }) 2 []).2 =
        .error (.config "Max iterations reached in agent loop")) ∧
    ((chatStream (fun _ => none) none (fun _ _ => Except.ok
        [.ok (.data (.assistant [.functionCall (some "c") "f" (Json.str "") none false])),
         .ok (.finish .toolCalls)]) 2 []).1.length = 2 ∧
      (chatStream (fun _ => none) none (fun _ _ => Except.ok
        [.ok (.data (.assistant [.functionCall (some "c") "f" (Json.str "") none false])),
         .ok (.finish .toolCalls)]) 2 []).2.getLast? =
        some (.error (.config "Max iterations reached in agent loop"))) :=
  ⟨agent_max_iterations_bound.1 none _ 2 []
     (fun _ _ => ⟨_, rfl, rfl⟩),
   agent_max_iterations_bound.2 (fun _ => none) none _ 2 []
     (fun _ _ => ⟨_, rfl, rfl, rfl⟩)⟩

/- ------------------------------------------------------------------ -/
/- Claim C5: wrapping of tool responses.                               -/
/- ------------------------------------------------------------------ -/

/-- Counterexample to claim C5: with one iteration producing two tool
calls, `Agent::chat` appends two separate single-part `User` tool-response
messages (one per call, pushed inside the per-part loop), not one `User`
message holding both `FunctionResponse` parts. -/
theorem agent_single_tool_user_message_refuted :
    (chat (some (fun _ _ => .ok (Json.str "ok")))
        (client2
          { data := [.assistant [.functionCall (some "a") "f" Json.null none true,
                                 .functionCall (some "b") "g" Json.null none true]],
            usage := none, finish := .toolCalls }
          { data := [.assistant [.text "done"]], usage := none, finish := .stop })
        10 []).2 =
      .ok { data := [.assistant [.functionCall (some "a") "f" Json.null none true,
                                 .functionCall (some "b") "g" Json.null none true],
                     .user [.functionResponse (some "a") "f" (Json.str "ok")],
                     .user [.functionResponse (some "b") "g" (Json.str "ok")],
                     .assistant [.text "done"]],
            usage := some { prompt_tokens := some 0, completion_tokens := some 0 },
            finish := .stop } ∧
    ([AgentMessage.assistant [.functionCall (some "a") "f" Json.null none true,
                              .functionCall (some "b") "g" Json.null none true],
      AgentMessage.user [.functionResponse (some "a") "f" (Json.str "ok")],
      AgentMessage.user [.functionResponse (some "b") "g" (Json.str "ok")],
      AgentMessage.assistant [.text "done"]].countP isToolResponseUserMsg = 2 ∧
     ¬ ([AgentMessage.assistant [.functionCall (some "a") "f" Json.null none true,
                                 .functionCall (some "b") "g" Json.null none true],
         AgentMessage.user [.functionResponse (some "a") "f" (Json.str "ok")],
         AgentMessage.user [.functionResponse (some "b") "g" (Json.str "ok")],
         AgentMessage.assistant [.text "done"]].countP isToolResponseUserMsg = 1)) := by
  refine ⟨rfl, rfl, ?_⟩
  intro h
  exact Nat.noConfusion (Nat.succ.inj h)

/-- Claim C5 amended: every `FunctionCall` part executed in an iteration
yields its own fresh `User` message holding exactly one `FunctionResponse`
part, appended immediately to both the history and the output trace; an
iteration whose model messages carry k function calls therefore appends k
tool-response `User` messages, not one message with k parts. -/
theorem agent_tool_responses_per_call_user_message :
    (∀ (server : Option ToolServer) (data : List AgentMessage)
       (a b : List AgentMessage) (flag : Bool),
      processRespData server data (a, b, flag) =
        (a ++ iterMsgs server data, b ++ iterMsgs server data,
         flag || data.any AgentMessage.hasFunctionCall))
    ∧ (∀ (server : Option ToolServer) (p : AgentPart),
        (partToolMsgs server p).length = if p.isFunctionCall then 1 else 0)
    ∧ (∀ (server : Option ToolServer) (p : AgentPart) (m : AgentMessage),
        m ∈ partToolMsgs server p →
        ∃ id name r, m = .user [.functionResponse id name r])
    ∧ (∀ (server : Option ToolServer) (respFC respStop : AgentResponse)
         (msgs : List AgentMessage),
        respFC.data.any AgentMessage.hasFunctionCall = true →
        respStop.data.any AgentMessage.hasFunctionCall = false →
        ∃ u, (chat server (client2 respFC respStop) 10 msgs).2 =
          .ok { data := iterMsgs server respFC.data ++ iterMsgs server respStop.data,
                usage := u, finish := respStop.finish }) := by
  refine ⟨processRespData_eq, ?_, ?_, ?_⟩
  · intro server p
    cases p <;> rfl
  · intro server p m hm
    match p, hm with
    | .functionCall id name args sig fin, hm =>
      have h2 : m = toolResponseMsg server id name args := List.mem_singleton.mp hm
      exact ⟨id, name, _, h2⟩
  · intro server respFC respStop msgs hFC hNo
    exact (chat_stops_after_two server (client2 respFC respStop) msgs
      respFC respStop 8 rfl hFC rfl hNo).2

/-- Witness for the amended C5 at concrete inputs. -/
theorem agent_tool_responses_per_call_user_message_witness :
    (∃ id name r,
      AgentMessage.user [.functionResponse (some "a") "f" (Json.str "ok")] =
        AgentMessage.user [.functionResponse id name r]) ∧
    ∃ u, (chat (some (fun _ _ => .ok (Json.str "ok")))
        (client2
          { data := [.assistant [.functionCall (some "a") "f" Json.null none true,
                                 .functionCall (some "b") "g" Json.null none true]],
            usage := none, finish := .toolCalls }
          { data := [.assistant [.text "done"]], usage := none, finish := .stop })
        10 []).2 =
      .ok { data :=
              iterMsgs (some (fun _ _ => .ok (Json.str "ok")))
                [.assistant [.functionCall (some "a") "f" Json.null none true,
                             .functionCall (some "b") "g" Json.null none true]] ++
              iterMsgs (some (fun _ _ => .ok (Json.str "ok")))
                [.assistant [.text "done"]],
            usage := u, finish := .stop } :=
  ⟨agent_tool_responses_per_call_user_message.2.2.1
      (some (fun _ _ => .ok (Json.str "ok")))
      (.functionCall (some "a") "f" Json.null none true)
      (.user [.functionResponse (some "a") "f" (Json.str "ok")])
      (List.mem_singleton.mpr rfl),
   agent_tool_responses_per_call_user_message.2.2.2
      (some (fun _ _ => .ok (Json.str "ok")))
      { data := [.assistant [.functionCall (some "a") "f" Json.null none true,
                             .functionCall (some "b") "g" Json.null none true]],
        usage := none, finish := .toolCalls }
      { data := [.assistant [.text "done"]], usage := none, finish := .stop }
      [] rfl rfl⟩

/- ------------------------------------------------------------------ -/
/- Claim C6: function call with no server configured.                  -/
/- ------------------------------------------------------------------ -/

/-- Counterexample to claim C6: with no tool server configured and a model
response containing a `FunctionCall`, `Agent::chat` does not terminate with
a Configuration error; the missing-server failure is converted into a tool
error `FunctionResponse` handed back to the model, the loop continues, and
the run ends successfully. -/
theorem agent_no_server_config_error_refuted :
    (chat none (client2
        { data := [.assistant [.functionCall (some "c1") "f" (Json.obj []) none true]],
          usage := none, finish := .toolCalls }
        { data := [.assistant [.text "done"]], usage := none, finish := .stop })
        10 []).2 =
      .ok { data := [.assistant [.functionCall (some "c1") "f" (Json.obj []) none true],
                     .user [.functionResponse (some "c1") "f"
                       (Json.obj [("error", Json.str "No MCP server configured")])],
                     .assistant [.text "done"]],
            usage := some { prompt_tokens := some 0, completion_tokens := some 0 },
            finish := .stop } ∧
    ∀ e, (chat none (client2
        { data := [.assistant [.functionCall (some "c1") "f" (Json.obj []) none true]],
          usage := none, finish := .toolCalls }
        { data := [.assistant [.text "done"]], usage := none, finish := .stop })
        10 []).2 ≠ .error e := by
  refine ⟨rfl, ?_⟩
  intro e h
  have h2 : (Except.ok
      { data := [AgentMessage.assistant
                   [.functionCall (some "c1") "f" (Json.obj []) none true],
                 .user [.functionResponse (some "c1") "f"
                   (Json.obj [("error", Json.str "No MCP server configured")])],
                 .assistant [.text "done"]],
        usage := some { prompt_tokens := some 0, completion_tokens := some 0 },
        finish := .stop } : Except ClientError AgentResponse) = .error e := h
  exact Except.noConfusion h2

/-- Claim C6 amended: with no tool server configured, a received
`FunctionCall` is treated as a failed tool execution, not as a terminal
configuration error: `execute_tool` fails with the fixed string, `chat`
wraps it as a `FunctionResponse` whose response object carries that string
under the `error` key, and the loop continues to the next iteration and can
finish successfully. -/
theorem agent_no_server_error_reported_to_model :
    (∀ (name : String) (args : Json),
      executeTool none name args = .error "No MCP server configured")
    ∧ (∀ (id : Option String) (name : String) (args : Json) (sig : Option String)
         (fin : Bool),
        partToolMsgs none (.functionCall id name args sig fin) =
          [.user [.functionResponse id name
            (Json.obj [("error", Json.str "No MCP server configured")])]])
    ∧ (∀ (respFC respStop : AgentResponse) (msgs : List AgentMessage),
        respFC.data.any AgentMessage.hasFunctionCall = true →
        respStop.data.any AgentMessage.hasFunctionCall = false →
        (chat none (client2 respFC respStop) 10 msgs).1.length = 2 ∧
        ∃ r, (chat none (client2 respFC respStop) 10 msgs).2 = .ok r) := by
  refine ⟨fun name args => rfl, fun id name args sig fin => rfl, ?_⟩
  intro respFC respStop msgs hFC hNo
  obtain ⟨h1, u, h2⟩ := chat_stops_after_two none (client2 respFC respStop) msgs
    respFC respStop 8 rfl hFC rfl hNo
  exact ⟨h1, _, h2⟩

/-- Witness for the amended C6 at concrete inputs. -/
theorem agent_no_server_error_reported_to_model_witness :
    partToolMsgs none (.functionCall (some "c1") "f" (Json.obj []) none true) =
      [.user [.functionResponse (some "c1") "f"
        (Json.obj [("error", Json.str "No MCP server configured")])]] ∧
    (chat none (client2
        { data := [.assistant [.functionCall (some "c1") "f" (Json.obj []) none true]],
          usage := none, finish := .toolCalls }
        { data := [.assistant [.text "done"]], usage := none, finish := .stop })
        10 []).1.length = 2 :=
  ⟨agent_no_server_error_reported_to_model.2.1 (some "c1") "f" (Json.obj []) none true,
   (agent_no_server_error_reported_to_model.2.2
      { data := [.assistant [.functionCall (some "c1") "f" (Json.obj []) none true]],
        usage := none, finish := .toolCalls }
      { data := [.assistant [.text "done"]], usage := none, finish := .stop }
      [] rfl rfl).1⟩

/- ------------------------------------------------------------------ -/
/- Claim C2: index-keyed tool-call accumulation.                       -/
/- ------------------------------------------------------------------ -/

theorem keysOrderAux_append (j : Nat) (xs : List Nat) :
    ∀ seen, keysOrderAux seen (xs ++ [j]) =
      keysOrderAux seen xs ++ (if j ∈ seen ∨ j ∈ xs then [] else [j]) := by
  induction xs with
  | nil =>
    intro seen
    by_cases h : j ∈ seen <;> simp [keysOrderAux, h]
  | cons k xs ih =>
    intro seen
    by_cases hk : k ∈ seen
    · have hcond : (j ∈ seen ∨ j ∈ xs) ↔ (j ∈ seen ∨ j ∈ k :: xs) := by
        constructor
        · rintro (h | h)
          · exact Or.inl h
          · exact Or.inr (List.mem_cons_of_mem _ h)
        · rintro (h | h)
          · exact Or.inl h
          · rcases List.mem_cons.mp h with rfl | h2
            · exact Or.inl hk
            · exact Or.inr h2
      show keysOrderAux seen (k :: (xs ++ [j])) = _
      simp only [keysOrderAux, if_pos hk, ih seen]
      rw [if_congr hcond rfl rfl]
    · have hcond : (j ∈ k :: seen ∨ j ∈ xs) ↔ (j ∈ seen ∨ j ∈ k :: xs) := by
        constructor
        · rintro (h | h)
          · rcases List.mem_cons.mp h with rfl | h2
            · exact Or.inr (List.mem_cons_self _ _)
            · exact Or.inl h2
          · exact Or.inr (List.mem_cons_of_mem _ h)
        · rintro (h | h)
          · exact Or.inl (List.mem_cons_of_mem _ h)
          · rcases List.mem_cons.mp h with rfl | h2
            · exact Or.inl (List.mem_cons_self _ _)
            · exact Or.inr h2
      show keysOrderAux seen (k :: (xs ++ [j])) = _
      simp only [keysOrderAux, if_neg hk, ih (k :: seen)]
      rw [if_congr hcond rfl rfl]
      simp

theorem keysOrder_append (xs : List Nat) (j : Nat) :
    keysOrder (xs ++ [j]) = keysOrder xs ++ (if j ∈ xs then [] else [j]) := by
  have h := keysOrderAux_append j xs []
  simpa [keysOrder] using h

theorem keysOrderAux_mem_iff (xs : List Nat) :
    ∀ seen x, x ∈ keysOrderAux seen xs ↔ x ∈ xs ∧ x ∉ seen := by
  induction xs with
  | nil => intro seen x; simp [keysOrderAux]
  | cons k xs ih =>
    intro seen x
    by_cases hk : k ∈ seen
    · show x ∈ (if k ∈ seen then keysOrderAux seen xs
        else k :: keysOrderAux (k :: seen) xs) ↔ _
      rw [if_pos hk, ih]
      constructor
      · rintro ⟨h1, h2⟩
        exact ⟨List.mem_cons_of_mem _ h1, h2⟩
      · rintro ⟨h1, h2⟩
        rcases List.mem_cons.mp h1 with rfl | h3
        · exact absurd hk h2
        · exact ⟨h3, h2⟩
    · show x ∈ (if k ∈ seen then keysOrderAux seen xs
        else k :: keysOrderAux (k :: seen) xs) ↔ _
      rw [if_neg hk]
      constructor
      · intro h
        rcases List.mem_cons.mp h with rfl | h2
        · exact ⟨List.mem_cons_self _ _, hk⟩
        · obtain ⟨h3, h4⟩ := (ih (k :: seen) x).mp h2
          refine ⟨List.mem_cons_of_mem _ h3, fun hc => h4 (List.mem_cons_of_mem _ hc)⟩
      · rintro ⟨h1, h2⟩
        rcases List.mem_cons.mp h1 with rfl | h3
        · exact List.mem_cons_self _ _
        · by_cases hxk : x = k
          · rw [hxk]; exact List.mem_cons_self _ _
          · refine List.mem_cons_of_mem _ ((ih (k :: seen) x).mpr ⟨h3, ?_⟩)
            intro hc
            rcases List.mem_cons.mp hc with h4 | h4
            · exact hxk h4
            · exact h2 h4

theorem keysOrder_mem_iff (xs : List Nat) (x : Nat) :
    x ∈ keysOrder xs ↔ x ∈ xs := by
  rw [keysOrder, keysOrderAux_mem_iff]
  simp

theorem keysOrderAux_nodup (xs : List Nat) :
    ∀ seen, (keysOrderAux seen xs).Nodup := by
  induction xs with
  | nil => intro seen; exact List.nodup_nil
  | cons k xs ih =>
    intro seen
    by_cases hk : k ∈ seen
    · show ((if k ∈ seen then keysOrderAux seen xs
        else k :: keysOrderAux (k :: seen) xs)).Nodup
      rw [if_pos hk]
      exact ih seen
    · show ((if k ∈ seen then keysOrderAux seen xs
        else k :: keysOrderAux (k :: seen) xs)).Nodup
      rw [if_neg hk]
      refine List.nodup_cons.mpr ⟨?_, ih (k :: seen)⟩
      intro hc
      exact ((keysOrderAux_mem_iff xs (k :: seen) k).mp hc).2 (List.mem_cons_self _ _)

theorem keysOrder_nodup (xs : List Nat) : (keysOrder xs).Nodup :=
  keysOrderAux_nodup xs []

theorem posIn_none_iff (ks : List Nat) (j : Nat) :
    posIn ks j = none ↔ j ∉ ks := by
  induction ks with
  | nil => simp [posIn]
  | cons k ks ih =>
    by_cases h : j = k
    · simp [posIn, h]
    · simp [posIn, h, ih]

theorem posIn_mem (ks : List Nat) (j : Nat) (h : j ∈ ks) :
    ∃ p, posIn ks j = some p := by
  cases hp : posIn ks j with
  | some p => exact ⟨p, rfl⟩
  | none => exact absurd ((posIn_none_iff ks j).mp hp) (by simp [h])

theorem posIn_getElem (ks : List Nat) (j : Nat) :
    ∀ p, posIn ks j = some p → ks[p]? = some j := by
  induction ks with
  | nil => intro p h; exact absurd h (by simp [posIn])
  | cons k ks ih =>
    intro p h
    by_cases hjk : j = k
    · have h2 : some 0 = some p := by rw [← h]; simp [posIn, hjk]
      rw [← Option.some.inj h2]
      simp [hjk]
    · have h2 : (posIn ks j).map (· + 1) = some p := by rw [← h]; simp [posIn, hjk]
      cases hq : posIn ks j with
      | none => rw [hq] at h2; exact absurd h2 (by simp)
      | some q =>
        rw [hq] at h2
        have h3 : q + 1 = p := by simpa using h2
        rw [← h3]
        rw [List.getElem?_cons_succ]
        exact ih q hq

theorem lookupIdx_mkMap (ks : List Nat) :
    ∀ (off : Nat) (j : Nat),
      lookupIdx (mkMap off ks) j = (posIn ks j).map (off + ·) := by
  induction ks with
  | nil => intro off j; simp [mkMap, lookupIdx, posIn]
  | cons k ks ih =>
    intro off j
    show (if k = j then some off else lookupIdx (mkMap (off + 1) ks) j) = _
    by_cases h : k = j
    · simp [posIn, h, if_pos]
    · have hjk : ¬ j = k := fun hc => h hc.symm
      rw [if_neg h, ih (off + 1) j]
      simp only [posIn, if_neg hjk]
      cases hq : posIn ks j with
      | none => simp
      | some q => simp; omega

theorem mkMap_append (ks : List Nat) :
    ∀ (off : Nat) (j : Nat),
      mkMap off (ks ++ [j]) = mkMap off ks ++ [(j, off + ks.length)] := by
  induction ks with
  | nil => intro off j; simp [mkMap]
  | cons k ks ih =>
    intro off j
    show (k, off) :: mkMap (off + 1) (ks ++ [j]) = _
    rw [ih (off + 1) j]
    simp only [mkMap, List.cons_append, List.length_cons]
    have h : off + 1 + ks.length = off + (ks.length + 1) := by omega
    rw [h]

theorem map_set_posIn (j : Nat) (f : Nat → Part) (v : Part) :
    ∀ (ks : List Nat), ks.Nodup → ∀ p, posIn ks j = some p →
      (ks.map f).set p v = ks.map (fun k => if k = j then v else f k) := by
  intro ks
  induction ks with
  | nil => intro _ p h; exact absurd h (by simp [posIn])
  | cons k ks ih =>
    intro hnd p h
    by_cases hjk : j = k
    · have h2 : some 0 = some p := by rw [← h]; simp [posIn, hjk]
      rw [← Option.some.inj h2]
      show v :: ks.map f = (if k = j then v else f k) :: _
      rw [if_pos hjk.symm]
      have hxne : ∀ x ∈ ks, (if x = j then v else f x) = f x := by
        intro x hx
        have hne : x ≠ j := by
          intro hc
          rw [hc, hjk] at hx
          exact (List.nodup_cons.mp hnd).1 hx
        rw [if_neg hne]
      rw [List.map_congr_left hxne]
    · have h2 : (posIn ks j).map (· + 1) = some p := by rw [← h]; simp [posIn, hjk]
      cases hq : posIn ks j with
      | none => rw [hq] at h2; exact absurd h2 (by simp)
      | some q =>
        rw [hq] at h2
        have h3 : q + 1 = p := by simpa using h2
        rw [← h3]
        show f k :: (ks.map f).set q v = (if k = j then v else f k) :: _
        rw [if_neg (fun hc => hjk hc.symm)]
        rw [ih (List.nodup_cons.mp hnd).2 q hq]

theorem argsFor_append_same (i : Nat) (ds : List (Nat × String)) (s : String) :
    argsFor i (ds ++ [(i, s)]) = argsFor i ds ++ s := by
  unfold argsFor
  rw [List.filter_append, List.map_append, concatAll_append]
  have h : List.filter (fun d => d.1 == i) [(i, s)] = [(i, s)] := by simp
  rw [h]
  show _ ++ (s ++ concatAll []) = _
  rw [show concatAll [] = "" from rfl, String.append_empty]

theorem argsFor_append_other (i : Nat) (ds : List (Nat × String)) (j : Nat)
    (s : String) (h : j ≠ i) :
    argsFor i (ds ++ [(j, s)]) = argsFor i ds := by
  unfold argsFor
  rw [List.filter_append]
  have h2 : List.filter (fun d => d.1 == i) [(j, s)] = [] := by simp [h]
  rw [h2]
  simp

theorem argsFor_not_mem (i : Nat) (ds : List (Nat × String))
    (h : i ∉ ds.map Prod.fst) : argsFor i ds = "" := by
  unfold argsFor
  have h2 : List.filter (fun d => d.1 == i) ds = [] := by
    rw [List.filter_eq_nil_iff]
    intro d hd
    simp only [beq_iff_eq]
    intro hc
    exact h (List.mem_map.mpr ⟨d, hd, hc⟩)
  rw [h2]
  rfl

theorem set_concat_length (l : List Part) (a b : Part) :
    (l ++ [a]).set l.length b = l ++ [b] := by
  induction l with
  | nil => rfl
  | cons x l ih => simp only [List.cons_append, List.length_cons, List.set_cons_succ, ih]

theorem processToolCall_toolDelta_found (parts : List Part) (map : List (Nat × Nat))
    (j : Nat) (s : String) (p : Nat) (hl : lookupIdx map j = some p)
    (id0 : Option String) (name0 : String) (args0 : String) (sig0 : Option String)
    (fin0 : Bool)
    (hp : parts[p]? = some (.functionCall id0 name0 (Json.str args0) sig0 fin0)) :
    processToolCall (parts, map) (toolDelta (j, s)) =
      (parts.set p (.functionCall id0 (name0 ++ "") (Json.str (args0 ++ s)) sig0 fin0),
       map) := by
  unfold processToolCall toolDelta
  simp only [hl, hp]

theorem processToolCall_toolDelta_new (parts : List Part) (map : List (Nat × Nat))
    (j : Nat) (s : String) (hl : lookupIdx map j = none) :
    processToolCall (parts, map) (toolDelta (j, s)) =
      (parts ++ [.functionCall none ("" ++ "") (Json.str ("" ++ s)) none false],
       map ++ [(j, parts.length)]) := by
  unfold processToolCall toolDelta
  simp only [hl]
  have hp : (parts ++ [Part.functionCall none "" (Json.str "") none false])[parts.length]? =
      some (Part.functionCall none "" (Json.str "") none false) := by
    rw [List.getElem?_append_right (Nat.le_refl _)]
    simp
  simp only [hp]
  rw [set_concat_length]

theorem toolFold_append (ds : List (Nat × String)) (d : Nat × String) :
    toolFold (ds ++ [d]) = processToolCall (toolFold ds) (toolDelta d) := by
  unfold toolFold
  rw [List.foldl_append]
  rfl

theorem toolFold_eq (ds : List (Nat × String)) :
    toolFold ds =
      ((keysOrder (ds.map Prod.fst)).map (fun i => expectedToolPart i ds),
       mkMap 0 (keysOrder (ds.map Prod.fst))) := by
  induction ds using List.reverseRecOn with
  | nil => rfl
  | append_singleton ds d ih =>
    obtain ⟨j, s⟩ := d
    rw [toolFold_append, ih]
    have hmapfst : (ds ++ [(j, s)]).map Prod.fst = ds.map Prod.fst ++ [j] := by simp
    by_cases hj : j ∈ ds.map Prod.fst
    · -- the index is already mapped: the existing part is extended in place
      have hks : keysOrder ((ds ++ [(j, s)]).map Prod.fst) =
          keysOrder (ds.map Prod.fst) := by
        rw [hmapfst, keysOrder_append, if_pos hj, List.append_nil]
      have hjks : j ∈ keysOrder (ds.map Prod.fst) :=
        (keysOrder_mem_iff _ _).mpr hj
      obtain ⟨p, hp⟩ := posIn_mem _ _ hjks
      have hl : lookupIdx (mkMap 0 (keysOrder (ds.map Prod.fst))) j = some p := by
        rw [lookupIdx_mkMap, hp]
        simp
      have hget : ((keysOrder (ds.map Prod.fst)).map
          (fun i => expectedToolPart i ds))[p]? =
          some (expectedToolPart j ds) := by
        rw [List.getElem?_map, posIn_getElem _ _ p hp]
        rfl
      rw [processToolCall_toolDelta_found _ _ j s p hl none ""
        (argsFor j ds) none false hget]
      rw [hks]
      refine Prod.ext ?_ rfl
      show ((keysOrder (ds.map Prod.fst)).map (fun i => expectedToolPart i ds)).set p
          (.functionCall none ("" ++ "") (Json.str (argsFor j ds ++ s)) none false) = _
      rw [map_set_posIn j _ _ (keysOrder (ds.map Prod.fst)) (keysOrder_nodup _) p hp]
      refine List.map_congr_left ?_
      intro x hx
      by_cases hxj : x = j
      · rw [if_pos hxj, hxj]
        unfold expectedToolPart
        rw [argsFor_append_same]
        rfl
      · rw [if_neg hxj]
        unfold expectedToolPart
        rw [argsFor_append_other x ds j s (fun hc => hxj hc.symm)]
    · -- first sighting of the index: a fresh part is allocated at the end
      have hks : keysOrder ((ds ++ [(j, s)]).map Prod.fst) =
          keysOrder (ds.map Prod.fst) ++ [j] := by
        rw [hmapfst, keysOrder_append, if_neg hj]
      have hjks : j ∉ keysOrder (ds.map Prod.fst) := by
        rw [keysOrder_mem_iff]
        exact hj
      have hl : lookupIdx (mkMap 0 (keysOrder (ds.map Prod.fst))) j = none := by
        rw [lookupIdx_mkMap]
        rw [(posIn_none_iff _ _).mpr hjks]
        rfl
      rw [processToolCall_toolDelta_new _ _ j s hl]
      rw [hks]
      refine Prod.ext ?_ ?_
      · show ((keysOrder (ds.map Prod.fst)).map (fun i => expectedToolPart i ds)) ++
            [Part.functionCall none ("" ++ "") (Json.str ("" ++ s)) none false] = _
        rw [List.map_append]
        refine congrArg₂ (· ++ ·) ?_ ?_
        · refine List.map_congr_left ?_
          intro x hx
          unfold expectedToolPart
          have hxj : x ≠ j := fun hc => hjks (hc ▸ hx)
          rw [argsFor_append_other x ds j s (fun hc => hxj hc.symm)]
        · show _ = [expectedToolPart j (ds ++ [(j, s)])]
          unfold expectedToolPart
          rw [argsFor_append_same, argsFor_not_mem j ds hj]
          rfl
      · show mkMap 0 (keysOrder (ds.map Prod.fst)) ++
            [(j, ((keysOrder (ds.map Prod.fst)).map (fun i => expectedToolPart i ds)).length)] = _
        rw [mkMap_append, List.length_map]
        simp

theorem processChunk_toolOnlyChunk (parse : String → Option Json)
    (d : Nat × String) (parts : List Part) (map : List (Nat × Nat))
    (u : Usage) (f : FinishReason) (tidx : Option Nat) :
    processChunk parse
      { response := { data := [Message.assistant parts], usage := u, finish := f },
        toolIndexMap := map, currentTextPartIndex := tidx } (toolOnlyChunk d) =
      { response := { data := [Message.assistant
                                 (processToolCall (parts, map) (toolDelta d)).1],
                      usage := u, finish := f },
        toolIndexMap := (processToolCall (parts, map) (toolDelta d)).2,
        currentTextPartIndex := tidx } := rfl

theorem streamFinal_toolChunks_aux (parse : String → Option Json)
    (ds : List (Nat × String)) :
    ∀ (parts : List Part) (map : List (Nat × Nat)) (u : Usage) (f : FinishReason)
      (tidx : Option Nat),
      (ds.map toolOnlyChunk).foldl (processChunk parse)
        { response := { data := [Message.assistant parts], usage := u, finish := f },
          toolIndexMap := map, currentTextPartIndex := tidx } =
      { response := { data := [Message.assistant
                                 (ds.foldl (fun pm d => processToolCall pm (toolDelta d))
                                   (parts, map)).1],
                      usage := u, finish := f },
        toolIndexMap :=
          (ds.foldl (fun pm d => processToolCall pm (toolDelta d)) (parts, map)).2,
        currentTextPartIndex := tidx } := by
  induction ds with
  | nil => intro parts map u f tidx; rfl
  | cons d rest ih =>
    intro parts map u f tidx
    show (rest.map toolOnlyChunk).foldl (processChunk parse)
        (processChunk parse _ (toolOnlyChunk d)) = _
    rw [processChunk_toolOnlyChunk]
    rw [ih]
    rfl

theorem streamFinal_toolChunks (parse : String → Option Json)
    (ds : List (Nat × String)) :
    streamFinal parse (ds.map toolOnlyChunk) =
      { response := { data := [Message.assistant (toolFold ds).1],
                      usage := { prompt_tokens := none, completion_tokens := none },
                      finish := .unfinished },
        toolIndexMap := (toolFold ds).2,
        currentTextPartIndex := none } :=
  streamFinal_toolChunks_aux parse ds [] [] _ _ none

/-- Claim C2: interleaved tool-call deltas are accumulated strictly by their
vendor-supplied index: the final accumulated assistant message holds exactly
one `FunctionCall` part per distinct index (in first-occurrence order, never
duplicated), the argument buffer of the part for index `i` is exactly the
concatenation of the fragments of the deltas tagged `i` (`argsFor`), so
arguments are never merged across distinct indices, and `tool_index_map`
maps the n-th distinct index to position n. -/
theorem openai_stream_toolcall_index_isolation (parse : String → Option Json)
    (ds : List (Nat × String)) :
    (streamFinal parse (ds.map toolOnlyChunk)).response.data =
      [Message.assistant ((keysOrder (ds.map Prod.fst)).map
        (fun i => expectedToolPart i ds))]
    ∧ (streamFinal parse (ds.map toolOnlyChunk)).toolIndexMap =
        mkMap 0 (keysOrder (ds.map Prod.fst))
    ∧ (keysOrder (ds.map Prod.fst)).Nodup
    ∧ (∀ i, i ∈ keysOrder (ds.map Prod.fst) ↔ i ∈ ds.map Prod.fst)
    ∧ (ds ≠ [] → (runOpenAIStream parse (ds.map toolOnlyChunk)).getLast? =
        some { data := [Message.assistant ((keysOrder (ds.map Prod.fst)).map
                 (fun i => expectedToolPart i ds))],
               usage := { prompt_tokens := none, completion_tokens := none },
               finish := .unfinished }) := by
  refine ⟨?_, ?_, keysOrder_nodup _, fun i => keysOrder_mem_iff _ i, ?_⟩
  · rw [streamFinal_toolChunks, toolFold_eq]
  · rw [streamFinal_toolChunks, toolFold_eq]
  · intro hne
    rw [runOpenAIStream_getLast parse _ (by simpa using hne)]
    rw [streamFinal_toolChunks, toolFold_eq]

/-- Witness for C2 on the interleaved two-index delta sequence
(0,"ab"), (1,"x"), (0,"cd"): index 0 accumulates "abcd", index 1
accumulates "x", in two distinct parts. -/
theorem openai_stream_toolcall_index_isolation_witness :
    (streamFinal (fun _ => none)
        ([(0, "ab"), (1, "x"), (0, "cd")].map toolOnlyChunk)).response.data =
      [Message.assistant ((keysOrder ([(0, "ab"), (1, "x"), (0, "cd")].map Prod.fst)).map
        (fun i => expectedToolPart i [(0, "ab"), (1, "x"), (0, "cd")]))]
    ∧ (runOpenAIStream (fun _ => none)
        ([(0, "ab"), (1, "x"), (0, "cd")].map toolOnlyChunk)).getLast? =
      some { data := [Message.assistant
               ((keysOrder ([(0, "ab"), (1, "x"), (0, "cd")].map Prod.fst)).map
                 (fun i => expectedToolPart i [(0, "ab"), (1, "x"), (0, "cd")]))],
             usage := { prompt_tokens := none, completion_tokens := none },
             finish := .unfinished }
    ∧ keysOrder ([(0, "ab"), (1, "x"), (0, "cd")].map Prod.fst) = [0, 1]
    ∧ argsFor 0 [(0, "ab"), (1, "x"), (0, "cd")] = "abcd"
    ∧ argsFor 1 [(0, "ab"), (1, "x"), (0, "cd")] = "x" :=
  ⟨(openai_stream_toolcall_index_isolation (fun _ => none)
      [(0, "ab"), (1, "x"), (0, "cd")]).1,
   (openai_stream_toolcall_index_isolation (fun _ => none)
      [(0, "ab"), (1, "x"), (0, "cd")]).2.2.2.2 (by simp),
   rfl, rfl, rfl⟩

end Unai
